import Mathlib

/-!
Verification development for the n8n-cli-toolkit node catalog pipeline.

The subsystem under study is the node catalog builder and query service:

* the rebuild script (database schema, the per-node extraction helpers
  `getNodeDescription`, `extractNodeType`, `isVersionedNode`,
  `extractVersion`, `extractOperations`, `extractDocumentation`,
  `buildCodexDocumentation`, and the `INSERT OR REPLACE` loop over a table
  keyed by `node_type`);
* the package loader `N8nNodeLoader.loadPackageNodes`, which walks a
  package manifest's declared node-module list and collects the modules
  that load and export a node class;
* the query service `N8nNodeService` (`searchNodes`, `getNodeInfo`,
  `getAINodes`, `fetchNodeCatalogFromGitHub`).

JavaScript dynamic values are embedded as follows: a JSON-serializable
runtime value is a `Json` tree (with an extra `nan` leaf for the IEEE NaN
produced by `parseFloat`, which `JSON.parse` itself never yields); a TEXT
column holding serialized JSON is a `JsonText`, which records either the
parse result of the stored text (`valid j` - `JSON.parse` recovers `j`,
and `JSON.stringify j` produces such a text) or an unparseable raw string
(`invalid s`).  Fallible steps return `Option`/`Except`; console logging
is made explicit as a returned list of message strings where a claim
depends on it.  JS truthiness tests from the source are modelled by
explicit `Option`/emptiness checks mirroring each site.
-/

/-- A JavaScript value as it appears in this pipeline: the JSON fragment
(`null`, booleans, numbers as `ℚ`, strings, arrays, objects as ordered
key-value lists) plus `nan`, the not-a-number value that `parseFloat`
returns on non-numeric text.  `JSON.parse` never produces `nan`. -/
inductive Json where
  | null : Json
  | bool (b : Bool) : Json
  | num (q : ℚ) : Json
  | str (s : String) : Json
  | arr (elems : List Json) : Json
  | obj (fields : List (String × Json)) : Json
  | nan : Json

/-- The content of a stored TEXT column that is meant to hold serialized
JSON: either text that `JSON.parse` accepts, identified with its parse
result, or text that `JSON.parse` rejects, kept as the raw string. -/
inductive JsonText where
  | valid (j : Json) : JsonText
  | invalid (s : String) : JsonText

/-- JS truthiness of a value (`false`, `0`, `""`, `null`, `undefined`,
`NaN` are falsy; arrays and objects, even empty ones, are truthy).
`undefined` is represented as `Option.none` at each use site. -/
def jsTruthy : Json → Bool
  | .null => false
  | .bool b => b
  | .num q => !(q == 0)
  | .str s => !(s == "")
  | .arr _ => true
  | .obj _ => true
  | .nan => false

/-- Truthiness of an optional string (`undefined` and `""` are falsy). -/
def strTruthy : Option String → Bool
  | none => false
  | some s => !(s == "")

/-- Truthiness of the raw text behind a `JsonText` column value: text
that parses as JSON is never empty (`JSON.stringify` output is nonempty),
so only the invalid empty string is falsy. -/
def jsonTextTruthy : JsonText → Bool
  | .valid _ => true
  | .invalid s => !(s == "")

/-- JS `a || b` on two optional strings (a present empty string is falsy
and falls through to `b`). -/
def jsOrStr (a b : Option String) : Option String :=
  if strTruthy a then a else b

/-- JS template interpolation of a possibly-undefined string. -/
def tmplStr : Option String → String
  | none => "undefined"
  | some s => s

/-- Lookup of a field of a JS object; `none` is `undefined` (also for
non-object receivers, matching the optional-chaining use sites). -/
def jsGet : Json → String → Option Json
  | .obj fields, key => (fields.find? (fun f => f.1 == key)).map (·.2)
  | _, _ => none

/-! ### String primitives

The source manipulates strings with `String.prototype.replace` (first
occurrence only), `includes`, template literals, and SQLite's `LIKE`.
These are modelled over `List Char`. -/

/-- ASCII lower-casing of one character, written as the explicit
A-Z to a-z table (every other character, `%` and `_` included, is a
fixed point).  SQLite's `LIKE` case-folds exactly the ASCII letters. -/
def lowerAsciiChar (c : Char) : Char :=
  if c = 'A' then 'a' else if c = 'B' then 'b' else if c = 'C' then 'c'
  else if c = 'D' then 'd' else if c = 'E' then 'e' else if c = 'F' then 'f'
  else if c = 'G' then 'g' else if c = 'H' then 'h' else if c = 'I' then 'i'
  else if c = 'J' then 'j' else if c = 'K' then 'k' else if c = 'L' then 'l'
  else if c = 'M' then 'm' else if c = 'N' then 'n' else if c = 'O' then 'o'
  else if c = 'P' then 'p' else if c = 'Q' then 'q' else if c = 'R' then 'r'
  else if c = 'S' then 's' else if c = 'T' then 't' else if c = 'U' then 'u'
  else if c = 'V' then 'v' else if c = 'W' then 'w' else if c = 'X' then 'x'
  else if c = 'Y' then 'y' else if c = 'Z' then 'z' else c

/-- Lower-case the ASCII letters of a character list. -/
def lowerAscii (cs : List Char) : List Char :=
  cs.map lowerAsciiChar

/-- Does `needle` occur at the start of `hay`? -/
def startsWith : List Char → List Char → Bool
  | [], _ => true
  | _ :: _, [] => false
  | a :: as, b :: bs => a == b && startsWith as bs

/-- Does `needle` occur contiguously anywhere in `hay`?  This is the
substring relation the specification describes for keyword search. -/
def isSubstr (needle : List Char) : List Char → Bool
  | [] => needle.isEmpty
  | h :: t => startsWith needle (h :: t) || isSubstr needle t

/-- Does `f` accept some suffix of the text?  Drives the `%` wildcard
of `likeMatch`. -/
def likeTail (f : List Char → Bool) : List Char → Bool
  | [] => f []
  | t :: ts => f (t :: ts) || likeTail f ts

/-- SQLite `LIKE` pattern matching: `%` matches any (possibly empty)
character sequence — i.e. the rest of the pattern may resume at any
suffix of the text — `_` matches exactly one character, every other
pattern character matches itself.  Case-folding is applied by the
caller (`sqlLike`), so this matcher is case-sensitive. -/
def likeMatch : List Char → List Char → Bool
  | [], ts => ts.isEmpty
  | p :: ps, ts =>
    if p = '%' then likeTail (likeMatch ps) ts
    else
      match ts with
      | [] => false
      | t :: ts' => (if p = '_' then true else p == t) && likeMatch ps ts'

/-- JS `String.prototype.replace(pat, rep)` with a string pattern:
replaces only the first occurrence of `pat`, scanning left to right. -/
def replaceFirstAux (pat rep : List Char) : List Char → List Char
  | [] => []
  | h :: t =>
    if startsWith pat (h :: t) then rep ++ (h :: t).drop pat.length
    else h :: replaceFirstAux pat rep t

/-- `String` wrapper for `replaceFirstAux`. -/
def replaceFirst (s pat rep : String) : String :=
  ⟨replaceFirstAux pat.data rep.data s.data⟩

/-- JS `String.prototype.includes` specialized to a single character,
as used by `name.includes('.')` and `nodeType.includes('webhook')`
(the latter goes through `isSubstr` instead). -/
def strContainsChar (s : String) (c : Char) : Bool :=
  s.data.contains c

/-- JS `String.prototype.includes` for a string needle. -/
def strContainsStr (s needle : String) : Bool :=
  isSubstr needle.data s.data

/-! ### parseFloat

`parseFloat` reads the longest numeric prefix of a string after leading
whitespace: optional sign, digits, optional fraction, optional exponent;
it returns NaN when no digits are found.  (The `Infinity` literal, which
real `parseFloat` also accepts, does not fit a `ℚ` model and is treated
as NaN here; no value in this pipeline produces it.) -/

/-- Read a block of leading decimal digits, returning their value, the
number of digits and the rest. -/
def readDigits : List Char → ℕ → ℕ → ℕ × ℕ × List Char
  | c :: cs, acc, n =>
    if c.isDigit then readDigits cs (acc * 10 + (c.toNat - '0'.toNat)) (n + 1)
    else (acc, n, c :: cs)
  | [], acc, n => (acc, n, [])

/-- Optional sign; returns the sign as `1` or `-1` and the rest. -/
def readSign : List Char → Int × List Char
  | '-' :: cs => (-1, cs)
  | '+' :: cs => (1, cs)
  | cs => (1, cs)

/-- Parse the exponent part (`e`/`E`, optional sign, digits); returns
the exponent when well-formed, else `none` (real `parseFloat` then stops
before the `e`, which leaves the mantissa value unchanged). -/
def readExponent : List Char → Option Int
  | 'e' :: cs =>
    let (sg, cs') := readSign cs
    let (v, n, _) := readDigits cs' 0 0
    if n = 0 then none else some (sg * v)
  | 'E' :: cs =>
    let (sg, cs') := readSign cs
    let (v, n, _) := readDigits cs' 0 0
    if n = 0 then none else some (sg * v)
  | _ => none

/-- `parseFloat` on a raw string, yielding `Json.num q` on success and
`Json.nan` when no leading numeric prefix exists. -/
def parseFloatLeading (s : String) : Json :=
  let cs := s.data.dropWhile Char.isWhitespace
  let (sg, cs₁) := readSign cs
  let (ip, ni, cs₂) := readDigits cs₁ 0 0
  match cs₂ with
  | '.' :: cs₃ =>
    let (fp, nf, cs₄) := readDigits cs₃ 0 0
    if ni = 0 ∧ nf = 0 then Json.nan
    else
      let mant : ℚ := (sg : ℚ) * ((ip : ℚ) + (fp : ℚ) / ((10 : ℚ) ^ nf))
      match readExponent cs₄ with
      | some e => Json.num (mant * (10 : ℚ) ^ e)
      | none => Json.num mant
  | rest =>
    if ni = 0 then Json.nan
    else
      let mant : ℚ := (sg : ℚ) * (ip : ℚ)
      match readExponent rest with
      | some e => Json.num (mant * (10 : ℚ) ^ e)
      | none => Json.num mant

/-- `parseFloat(String(x))` for a JS value `x` that was stored as JSON
text: a finite number stringifies to a numeral `parseFloat` fully reads
back; every other JSON value stringifies to text with no leading numeric
prefix (`"…"`, `true`, `false`, `null`, `[…]`, an object form), so
`parseFloat` yields NaN. -/
def parseFloatOfJson : Json → Json
  | .num q => .num q
  | _ => .nan

/-! ### Node descriptor shapes

The duck-typed runtime objects the rebuild script probes.  A loaded node
class (`NodeClassJs`) either constructs to an instance or throws; the
instance may carry `description`, `baseDescription`, a `nodeVersions`
map (numeric version → sub-definition, the `VersionedNodeType` pattern;
JS object keys are distinct) and a `getNodeType` method.  Only the
fields the rebuild script reads are represented. -/

/-- JS `Array.prototype.join(sep)`: elements concatenated with `sep`
between consecutive elements, `""` for the empty array. -/
def joinSep (sep : String) : List String → String
  | [] => ""
  | [a] => a
  | a :: b :: rest => a ++ sep ++ joinSep sep (b :: rest)

/-- A parameter descriptor inside `description.properties`. -/
structure PropertyJs where
  name : Option String
  displayName : Option String
  description : Option String
  options : Option Json

/-- Embedded categorical metadata (`description.codex`).  The source
only ever treats `categories`/`resources`/`alias` as arrays and
`subcategories` as an object (applying `join`, `map`, `Object.entries`),
so they are modelled directly at those types. -/
structure CodexJs where
  categories : Option (List String)
  subcategories : Option (List (String × String))
  resources : Option (List (String × String))
  -- the source key is `alias`, a reserved word in Lean
  aliasList : Option (List String)

/-- The declared `description.version` field: absent, a single number,
or an array of numbers (n8n declares versions numerically). -/
inductive VersionDecl where
  | absent : VersionDecl
  | single (q : ℚ) : VersionDecl
  | list (qs : List ℚ) : VersionDecl

/-- A node `description` object, restricted to the fields the rebuild
script reads.  Flag-like fields (`routing`, `polling`, `trigger`,
`webhook`) are arbitrary JS values tested for truthiness. -/
structure NodeDescriptionJs where
  name : Option String
  displayName : Option String
  description : Option String
  subtitle : Option String
  group : Option (List String)
  version : VersionDecl
  routing : Option Json
  polling : Option Json
  trigger : Option Json
  webhook : Option Json
  properties : Option (List PropertyJs)
  credentials : Option Json
  codex : Option CodexJs
  hints : Option String

/-- The empty object `{}` coerced to a description (every field reads
back `undefined`). -/
def NodeDescriptionJs.empty : NodeDescriptionJs :=
  ⟨none, none, none, none, none, .absent, none, none, none, none, none, none, none, none⟩

/-- The result of `new nodeClass()`. -/
structure NodeInstance where
  description : Option NodeDescriptionJs
  baseDescription : Option NodeDescriptionJs
  nodeVersions : Option (List (ℚ × Json))
  instHasGetNodeType : Bool

/-- A loaded node class value.  `construct` is the outcome of
`new nodeClass()` (`none` models a throwing constructor);
`classNodeVersions` / `classHasGetNodeType` are the class-level
properties probed before instantiation; `isFunction` is
`typeof nodeClass === 'function'`; `staticDescription` is
`nodeClass.description` for plain-object modules. -/
structure NodeClassJs where
  classNodeVersions : Bool
  classHasGetNodeType : Bool
  isFunction : Bool
  construct : Option NodeInstance
  staticDescription : Option NodeDescriptionJs

/-! ### Rebuild-script extraction helpers (rebuild script, part_001) -/

namespace Rebuild

/-- `getNodeDescription`: instantiate versioned or plain classes and
read `description` / `baseDescription`, falling back to `{}` on any
throw or missing field. -/
def getNodeDescription (nodeClass : NodeClassJs) : NodeDescriptionJs :=
  if nodeClass.classNodeVersions || nodeClass.classHasGetNodeType then
    match nodeClass.construct with
    | none => NodeDescriptionJs.empty
    | some inst =>
      match inst.description with
      | some d => d
      | none => inst.baseDescription.getD NodeDescriptionJs.empty
  else if nodeClass.isFunction then
    match nodeClass.construct with
    | none => NodeDescriptionJs.empty
    | some inst => inst.description.getD NodeDescriptionJs.empty
  else
    nodeClass.staticDescription.getD NodeDescriptionJs.empty

/-- `extractNodeType`: a falsy `name` gives the literal `"unknown"`; a
name already containing `.` is used verbatim; otherwise the name is
prefixed with the package name stripped of its scope segment (first
`@n8n/`) and of the first `n8n-` token. -/
def extractNodeType (description : NodeDescriptionJs) (packageName : String) : String :=
  if !(strTruthy description.name) then "unknown"
  else
    let name := description.name.getD ""
    if strContainsChar name '.' then name
    else
      let packagePrefix := replaceFirst (replaceFirst packageName "@n8n/" "") "n8n-" ""
      packagePrefix ++ "." ++ name

/-- `isVersionedNode`: class-level `nodeVersions`/`getNodeType`, else
instance-level (`false` when instantiation throws). -/
def isVersionedNode (nodeClass : NodeClassJs) : Bool :=
  if nodeClass.classNodeVersions || nodeClass.classHasGetNodeType then true
  else
    match nodeClass.construct with
    | none => false
    | some inst => inst.nodeVersions.isSome || inst.instHasGetNodeType

/-- Sort a list of rationals descending, as `versions.sort((a, b) => b - a)`
does for numeric arrays. -/
def sortDesc (qs : List ℚ) : List ℚ :=
  List.insertionSort (fun a b => b ≤ a) qs

/-- `extractVersion`, returning the stored TEXT payload: a JSON array of
the `nodeVersions` keys sorted descending, or of the declared version
array sorted descending, or the single declared version rendered by
`toString`, with `'1'` as the default (also on instantiation failure). -/
def extractVersion (nodeClass : NodeClassJs) : JsonText :=
  match nodeClass.construct with
  | none => .valid (.num 1)
  | some inst =>
    match inst.nodeVersions with
    | some nv => .valid (.arr ((sortDesc (nv.map (·.1))).map Json.num))
    | none =>
      let desc := if inst.description.isSome then inst.description else inst.baseDescription
      match desc with
      | none => .valid (.num 1)
      | some d =>
        match d.version with
        | .list qs => .valid (.arr ((sortDesc qs).map Json.num))
        | .single q => .valid (.num q)
        | .absent => .valid (.num 1)

/-- `extractOperations`: first parameter literally named `operation` or
`resource`; its `options`, serialized, when truthy. -/
def extractOperations (description : NodeDescriptionJs) : Option JsonText :=
  match description.properties with
  | none => none
  | some props =>
    match props.find? (fun p => p.name == some "operation" || p.name == some "resource") with
    | none => none
    | some f =>
      match f.options with
      | some opts => if jsTruthy opts then some (.valid opts) else none
      | none => none

/-- `buildCodexDocumentation`: renders categories, subcategories,
resource links and aliases; `none` when no section applies. -/
def buildCodexDocumentation (codex : CodexJs) : Option String :=
  let parts : List String :=
    (match codex.categories with
     | some cats => ["\n## Categories\n\n" ++ joinSep ", " cats]
     | none => []) ++
    (match codex.subcategories with
     | some subs =>
       ["\n## Use Cases\n\n" ++
        joinSep "\n" (subs.map (fun kv => "- " ++ kv.1 ++ ": " ++ kv.2))]
     | none => []) ++
    (match codex.resources with
     | some rs =>
       ["\n## Resources\n\n" ++
        joinSep "\n" (rs.map (fun r => "- [" ++ r.1 ++ "](" ++ r.2 ++ ")"))]
     | none => []) ++
    (match codex.aliasList with
     | some al => if al.length > 0 then ["\n## Also known as\n\n" ++ joinSep ", " al] else []
     | none => [])
  if parts.length > 0 then some (joinSep "\n" parts) else none

/-- `extractDocumentation`: a truthy external (GitHub) entry for the
node type wins verbatim; otherwise documentation is synthesized from
the description's own fields; `null` when no part applies. -/
def extractDocumentation (description : NodeDescriptionJs) (nodeType : String)
    (githubDocs : String → Option String) : Option String :=
  if strTruthy (githubDocs nodeType) then githubDocs nodeType
  else
    let docParts : List String :=
      (if strTruthy description.description then
        ["# " ++ tmplStr (jsOrStr description.displayName description.name) ++ "\n\n" ++
         (description.description.getD "") ++ "\n"]
       else []) ++
      (if strTruthy description.subtitle then
        ["## " ++ (description.subtitle.getD "") ++ "\n"]
       else []) ++
      (match description.properties with
       | some props =>
         let propertyDocs := joinSep "\n"
           ((props.filter (fun p => strTruthy p.description)).map
             (fun p => "**" ++ tmplStr (jsOrStr p.displayName p.name) ++ "**: " ++
                       (p.description.getD "")))
         if !(propertyDocs == "") then ["\n## Parameters\n\n" ++ propertyDocs ++ "\n"] else []
       | none => []) ++
      (match description.codex with
       | some codex =>
         match buildCodexDocumentation codex with
         | some codexDoc => [codexDoc]
         | none => []
       | none => []) ++
      (match description.hints with
       | some hints => if !(hints == "") then ["\n## Hints\n\n" ++ hints ++ "\n"] else []
       | none => [])
    if docParts.length > 0 then some (joinSep "\n" docParts) else none

end Rebuild

/-! ### Catalog rows and the rebuild loop -/

/-- One row of the `nodes` table, as the query service's `NodeInfo`
record sees it (`node_type` is the PRIMARY KEY).  Columns the SELECT
projection of `searchNodes` omits come back as `undefined` on its
results, hence the `Option` typing of those columns here.  The rebuild
INSERT never writes `outputs`, `output_names` and the tool-variant
columns, and no claim reads them, so they are not modelled. -/
structure NodeRow where
  node_type : String
  package_name : String
  display_name : String
  description : String
  category : Option String
  documentation : Option String
  properties_schema : Option JsonText
  operations : Option JsonText
  credentials_required : Option JsonText
  development_style : Option String
  is_ai_tool : Nat
  is_trigger : Nat
  is_webhook : Nat
  is_versioned : Option Nat
  version : Option JsonText

/-- A successfully loaded node module, the loader's result triple. -/
structure LoadedNode where
  packageName : String
  nodeName : String
  NodeClass : NodeClassJs

namespace Rebuild

/-- Encode a parameter descriptor the way `JSON.stringify` renders the
fields this model tracks. -/
def propertyToJson (p : PropertyJs) : Json :=
  .obj ((match p.name with | some n => [("name", Json.str n)] | none => []) ++
        (match p.displayName with | some n => [("displayName", Json.str n)] | none => []) ++
        (match p.description with | some d => [("description", Json.str d)] | none => []) ++
        (match p.options with | some o => [("options", o)] | none => []))

/-- The body of the rebuild loop for one loaded node: compute every
column of the `INSERT OR REPLACE` statement.  Columns absent from the
INSERT column list (`is_ai_tool` among them) take their schema DEFAULT
of `0`. -/
def buildRow (githubDocs : String → Option String) (node : LoadedNode) : NodeRow :=
  let description := getNodeDescription node.NodeClass
  let nodeType := extractNodeType description node.packageName
  let displayName :=
    tmplStr (jsOrStr (jsOrStr description.displayName description.name) (some node.nodeName))
  let desc := description.description.getD ""
  let category :=
    match description.group with
    | some (g :: _) => if g == "" then "misc" else g
    | _ => "misc"
  let isVersioned := isVersionedNode node.NodeClass
  let version := extractVersion node.NodeClass
  let style := if (description.routing.map jsTruthy).getD false then "declarative" else "programmatic"
  let documentation := extractDocumentation description nodeType githubDocs
  let properties := description.properties.map (fun ps => JsonText.valid (.arr (ps.map propertyToJson)))
  let operations := extractOperations description
  let credentials :=
    match description.credentials with
    | some c => if jsTruthy c then some (JsonText.valid c) else none
    | none => none
  let isTrigger :=
    if (description.polling.map jsTruthy).getD false ||
       (description.trigger.map jsTruthy).getD false || category == "trigger" then 1 else 0
  let isWebhook :=
    if (description.webhook.map jsTruthy).getD false || strContainsStr nodeType "webhook"
    then 1 else 0
  { node_type := nodeType
    package_name := node.packageName
    display_name := displayName
    description := desc
    category := some category
    documentation := documentation
    properties_schema := properties
    operations := operations
    credentials_required := credentials
    development_style := some style
    is_ai_tool := 0
    is_trigger := isTrigger
    is_webhook := isWebhook
    is_versioned := some (if isVersioned then 1 else 0)
    version := some version }

/-- `INSERT OR REPLACE` into a table whose PRIMARY KEY is `node_type`:
any existing row with the same key is deleted and the new row inserted
(fresh rowid, so at the end of the table). -/
def insertOrReplace (table : List NodeRow) (row : NodeRow) : List NodeRow :=
  (table.filter (fun r => !(r.node_type == row.node_type))) ++ [row]

/-- Folding the rebuild loop's inserts over an initially empty table
(the rebuild starts with `DELETE FROM nodes`). -/
def rebuildTable (rows : List NodeRow) : List NodeRow :=
  rows.foldl insertOrReplace []

/-- The whole rebuild pass: extract a row from every loaded node and
insert it.  (In the source the loop body is wrapped in a try/catch that
skips a node if extraction throws; every step of the loop body is total
in this model, each helper containing its own catch-with-default, so
every node yields a row.) -/
def rebuildCatalog (githubDocs : String → Option String) (nodes : List LoadedNode) : List NodeRow :=
  rebuildTable (nodes.map (buildRow githubDocs))

end Rebuild

/-! ### Package loader (`N8nNodeLoader.loadPackageNodes`)

A module load (`require(require.resolve(packagePath + '/' + nodePath))`)
either throws or yields a module object, modelled as its ordered export
list; the load outcome for each declared node path is supplied as an
environment function. -/

/-- Outcome of requiring one node module path. -/
inductive ModuleLoad where
  | throws : ModuleLoad
  | loaded (exportsList : List (String × NodeClassJs)) : ModuleLoad

namespace NodeLoader

/-- The stem of a path component matching `([^/]+)\.node\.(js|ts)$`
(a nonempty stem followed by `.node.js` or `.node.ts`). -/
def stripDotNode (base : List Char) : Option (List Char) :=
  if base.length > 8 ∧ base.drop (base.length - 8) = ".node.js".data then
    some (base.take (base.length - 8))
  else if base.length > 8 ∧ base.drop (base.length - 8) = ".node.ts".data then
    some (base.take (base.length - 8))
  else none

/-- `path.basename(p, '.node.js')`: the component after the last slash,
with a trailing `.node.js` removed unless it is the whole component. -/
def basenameDotNodeJs (base : List Char) : String :=
  if base.length > 8 ∧ base.drop (base.length - 8) = ".node.js".data then
    ⟨base.take (base.length - 8)⟩
  else ⟨base⟩

/-- The node name for a declared module path: the regex capture of
`/([^/]+)\.node\.(js|ts)$/` when it matches (which needs a slash before
the final component), else `path.basename(nodePath, '.node.js')`. -/
def extractNodeName (nodePath : String) : String :=
  let cs := nodePath.data
  let base := (cs.reverse.takeWhile (fun c => !(c == '/'))).reverse
  if cs.contains '/' then
    match stripDotNode base with
    | some stem => ⟨stem⟩
    | none => basenameDotNodeJs base
  else basenameDotNodeJs base

/-- `nodeModule.default || nodeModule[nodeName] || Object.values(nodeModule)[0]`
(class values are objects, hence truthy whenever present). -/
def resolveNodeClass (exportsList : List (String × NodeClassJs)) (nodeName : String) :
    Option NodeClassJs :=
  match exportsList.find? (fun e => e.1 == "default") with
  | some e => some e.2
  | none =>
    match exportsList.find? (fun e => e.1 == nodeName) with
    | some e => some e.2
    | none => exportsList.head?.map (·.2)

/-- The loop of `loadPackageNodes` over the manifest's declared node
module paths (`packageJson.n8n.nodes`, iterated only when it is an
array).  Returns the collected `(packageName, nodeName, NodeClass)`
triples and the console output: one `✓ Loaded` line per collected node,
and nothing for a module that throws on load (the catch block is empty:
`// Silently skip failed nodes`) or that yields no class value. -/
def loadPackageNodes (packageName : String) (loadModule : String → ModuleLoad) :
    List String → List LoadedNode × List String
  | [] => ([], [])
  | nodePath :: rest =>
    let step : List LoadedNode × List String :=
      match loadModule nodePath with
      | .throws => ([], [])
      | .loaded exportsList =>
        let nodeName := extractNodeName nodePath
        match resolveNodeClass exportsList nodeName with
        | some nc =>
          ([{ packageName := packageName, nodeName := nodeName, NodeClass := nc }],
           ["  ✓ Loaded " ++ nodeName])
        | none => ([], [])
    let restResult := loadPackageNodes packageName loadModule rest
    (step.1 ++ restResult.1, step.2 ++ restResult.2)

/-- The contribution of a single declared module path: the loaded triple
when the module loads and exposes a class, `none` otherwise. -/
def loadOne (packageName : String) (loadModule : String → ModuleLoad) (nodePath : String) :
    Option LoadedNode :=
  match loadModule nodePath with
  | .throws => none
  | .loaded exportsList =>
    (resolveNodeClass exportsList (extractNodeName nodePath)).map
      (fun nc => { packageName := packageName, nodeName := extractNodeName nodePath, NodeClass := nc })

end NodeLoader

/-! ### Query service (`N8nNodeService`) -/

/-- SQLite's BINARY collation: bytewise comparison of the UTF-8
encodings, which on codepoints coincides with lexicographic comparison
of the character lists. -/
def memcmpLe : List Char → List Char → Bool
  | [], _ => true
  | _ :: _, [] => false
  | x :: xs, y :: ys => if x = y then memcmpLe xs ys else decide (x < y)

/-- Row comparison by display name, the ORDER BY key of the AI
listing. -/
def displayNameLe (a b : NodeRow) : Prop :=
  memcmpLe a.display_name.data b.display_name.data = true

instance : DecidableRel displayNameLe := fun a b => by
  unfold displayNameLe
  infer_instance

namespace NodeService

/-- SQLite `text LIKE pattern` with the default ASCII-case-insensitive
collation: both sides are case-folded, then matched. -/
def sqlLike (text pattern : String) : Bool :=
  likeMatch (lowerAscii pattern.data) (lowerAscii text.data)

/-- The WHERE clause of `searchNodes` for one row: the pattern
`'%' + keyword + '%'` against `node_type`, `display_name`,
`description` and `documentation` (a NULL column never matches). -/
def searchMatches (keyword : String) (r : NodeRow) : Bool :=
  let pat := "%" ++ keyword ++ "%"
  sqlLike r.node_type pat || sqlLike r.display_name pat || sqlLike r.description pat ||
    (match r.documentation with
     | some d => sqlLike d pat
     | none => false)

/-- The SELECT projection of `searchNodes`: only `node_type`,
`package_name`, `display_name`, `description`, `category`,
`is_ai_tool`, `is_trigger`, `is_webhook`; every other column reads back
`undefined` on the result. -/
def searchProjection (r : NodeRow) : NodeRow :=
  { r with documentation := none, properties_schema := none, operations := none,
           credentials_required := none, development_style := none,
           is_versioned := none, version := none }

/-- `searchNodes`: matching rows in table order, capped by `LIMIT`,
reduced to the search projection. -/
def searchNodes (db : List NodeRow) (keyword : String) (limit : Nat) : List NodeRow :=
  ((db.filter (searchMatches keyword)).take limit).map searchProjection

/-- The value `getNodeInfo` returns: the full row (`SELECT *`) plus the
derived fields the service attaches after JSON-parsing the serialized
columns. -/
structure NodeInfoFull where
  base : NodeRow
  properties : Option Json
  operations_list : Option Json
  credentials : Option Json
  versions : Option (List Json)
  latest_version : Option Json

/-- One guarded `JSON.parse` of a serialized column: skipped when the
column is NULL or empty text; on a parse failure the derived field is
omitted and an error line is logged. -/
def parseJsonColumn (column : Option JsonText) (failMsg : String) :
    Option Json × List String :=
  match column with
  | none => (none, [])
  | some jt =>
    if jsonTextTruthy jt then
      match jt with
      | .valid j => (some j, [])
      | .invalid _ => (none, [failMsg])
    else (none, [])

/-- The `version` column handling of `getNodeInfo`: a JSON array yields
`versions` as-is with `latest_version` its first element; any other
parseable JSON value, and any unparseable text (the catch branch), fall
back to a one-element list through `parseFloat` on the raw text — note
that the unparseable case is NOT omitted and logs nothing. -/
def parseVersionColumn (column : Option JsonText) : Option (List Json) × Option Json :=
  match column with
  | none => (none, none)
  | some jt =>
    if jsonTextTruthy jt then
      match jt with
      | .valid (.arr xs) => (some xs, xs.head?)
      | .valid j => (some [parseFloatOfJson j], some (parseFloatOfJson j))
      | .invalid s => (some [parseFloatLeading s], some (parseFloatLeading s))
    else (none, none)

/-- Lookup normalization: the legacy `n8n-nodes-base.` spelling maps to
the stored `nodes-base.` key. -/
def normalizeNodeType (nodeType : String) : String :=
  replaceFirst nodeType "n8n-nodes-base." "nodes-base."

/-- `getNodeInfo`: normalize the type, fetch the row by exact key
(`SELECT * … WHERE node_type = ?`), attach the parsed derived fields;
returns the result (or `none` for a missing row) and the logged
warnings/errors. -/
def getNodeInfo (db : List NodeRow) (nodeType : String) :
    Option NodeInfoFull × List String :=
  let normalizedType := normalizeNodeType nodeType
  match db.find? (fun r => r.node_type == normalizedType) with
  | none => (none, ["Node not found: " ++ nodeType])
  | some row =>
    let ps := parseJsonColumn row.properties_schema
      ("Failed to parse properties_schema for " ++ nodeType)
    let ops := parseJsonColumn row.operations
      ("Failed to parse operations for " ++ nodeType)
    let creds := parseJsonColumn row.credentials_required
      ("Failed to parse credentials for " ++ nodeType)
    let vs := parseVersionColumn row.version
    (some { base := row, properties := ps.1, operations_list := ops.1,
            credentials := creds.1, versions := vs.1, latest_version := vs.2 },
     ps.2 ++ ops.2 ++ creds.2)

/-- `getAINodes`: `WHERE is_ai_tool = 1 OR category = 'AI' ORDER BY
display_name` (SQLite's default BINARY collation, i.e. codepoint
order). -/
def getAINodes (db : List NodeRow) : List NodeRow :=
  List.insertionSort displayNameLe
    (db.filter (fun r => r.is_ai_tool == 1 || r.category == some "AI"))

/-- An HTTP response as the reconciler consumes it: the `ok` flag,
`statusText`, and the JSON body `.json()` yields (upstream package
manifests are well-formed JSON, so the body is modelled parsed). -/
structure HttpResponse where
  ok : Bool
  statusText : String
  body : Json

/-- The outbound-fetch environment: the response for each URL. -/
structure FetchEnv where
  fetch : String → HttpResponse

/-- The reconciler's result (the wall-clock `timestamp` field is not
modelled). -/
structure ReleaseCatalog where
  version : Option Json
  fetchedFrom : String
  nodesBase : Json
  langchain : List Json

/-- `x.n8n?.nodes || []`. -/
def manifestNodes (body : Json) : Json :=
  match (jsGet body "n8n").bind (fun c => jsGet c "nodes") with
  | some v => if jsTruthy v then v else Json.arr []
  | none => Json.arr []

/-- `fetchNodeCatalogFromGitHub`: fetch the platform version manifest
(fatal if not ok), the nodes-base package manifest (also fatal if not
ok), and the langchain package manifest (not fatal: empty list and a
logged warning).  The outer catch logs and rethrows, so every thrown
error surfaces as `Except.error`.  `push(...xs)` spreads arrays and
strings and throws a TypeError on other truthy values. -/
def fetchNodeCatalogFromGitHub (env : FetchEnv) (versionOrBranch : String) :
    Except String ReleaseCatalog × List String :=
  let GITHUB_RAW_URL := "https://raw.githubusercontent.com/n8n-io/n8n/" ++ versionOrBranch
  let versionResponse := env.fetch (GITHUB_RAW_URL ++ "/packages/cli/package.json")
  if !versionResponse.ok then
    (.error ("Failed to fetch n8n version from " ++ versionOrBranch ++ ": " ++
             versionResponse.statusText), [])
  else
    let n8nVersion := jsGet versionResponse.body "version"
    let nodesBaseResponse := env.fetch (GITHUB_RAW_URL ++ "/packages/nodes-base/package.json")
    if !nodesBaseResponse.ok then
      (.error ("Failed to fetch nodes-base package: " ++ nodesBaseResponse.statusText), [])
    else
      let nodeFiles := manifestNodes nodesBaseResponse.body
      let langchainResponse :=
        env.fetch (GITHUB_RAW_URL ++ "/packages/@n8n/n8n-nodes-langchain/package.json")
      if langchainResponse.ok then
        match manifestNodes langchainResponse.body with
        | .arr xs =>
          (.ok { version := n8nVersion, fetchedFrom := versionOrBranch,
                 nodesBase := nodeFiles, langchain := xs }, [])
        | .str s =>
          (.ok { version := n8nVersion, fetchedFrom := versionOrBranch,
                 nodesBase := nodeFiles,
                 langchain := s.data.map (fun c => Json.str ⟨[c]⟩) }, [])
        | _ => (.error "TypeError: spread of a non-iterable value", [])
      else
        (.ok { version := n8nVersion, fetchedFrom := versionOrBranch,
               nodesBase := nodeFiles, langchain := [] },
         ["Could not fetch langchain nodes from " ++ versionOrBranch])

end NodeService

/-! ## Table lemmas for the rebuild loop -/

namespace Rebuild

/-- Key lookup after one `INSERT OR REPLACE`: the key just written wins;
every other key is untouched. -/
theorem find?_insertOrReplace (t : List NodeRow) (r : NodeRow) (ty : String) :
    (insertOrReplace t r).find? (fun x => x.node_type == ty)
      = if r.node_type == ty then some r
        else t.find? (fun x => x.node_type == ty) := by
  unfold insertOrReplace
  rw [List.find?_append, List.find?_filter]
  by_cases h : r.node_type = ty
  · subst h
    have hnone : t.find? (fun a => (!(a.node_type == r.node_type) : Bool) ∧ (a.node_type == r.node_type)) = none := by
      rw [List.find?_eq_none]
      intro x _ hx
      simp at hx
    rw [hnone]
    simp [List.find?]
  · have heq : (fun (a : NodeRow) => ((!(a.node_type == r.node_type) : Bool) ∧ (a.node_type == ty) : Bool))
        = fun a => a.node_type == ty := by
      funext a
      by_cases ha : a.node_type = ty
      · simp [ha, h, Ne.symm h]
      · simp [ha]
    rw [heq]
    have : (r.node_type == ty) = false := by simp [h]
    simp [List.find?, this]

/-- Folding the insert loop: lookup sees the last-inserted row for a
key, falling back to the starting table. -/
theorem foldl_insertOrReplace_find? (rows : List NodeRow) : ∀ (acc : List NodeRow) (ty : String),
    (rows.foldl insertOrReplace acc).find? (fun x => x.node_type == ty)
      = (rows.reverse.find? (fun x => x.node_type == ty)).or
          (acc.find? (fun x => x.node_type == ty)) := by
  induction rows with
  | nil => intro acc ty; simp
  | cons r rows ih =>
    intro acc ty
    simp only [List.foldl_cons, List.reverse_cons, List.find?_append]
    rw [ih, find?_insertOrReplace]
    by_cases h : r.node_type = ty
    · simp [h, List.find?]
      cases rows.reverse.find? (fun x => x.node_type == ty) <;> simp
    · have : (r.node_type == ty) = false := by simp [h]
      simp [this, List.find?]

/-- Key lookup in a rebuilt table is lookup of the latest descriptor. -/
theorem rebuildTable_find? (rows : List NodeRow) (ty : String) :
    (rebuildTable rows).find? (fun x => x.node_type == ty)
      = rows.reverse.find? (fun x => x.node_type == ty) := by
  unfold rebuildTable
  rw [foldl_insertOrReplace_find?]
  simp

/-- One `INSERT OR REPLACE` preserves distinctness of the keys. -/
theorem insertOrReplace_keys_nodup (t : List NodeRow) (r : NodeRow)
    (h : (t.map (fun x => x.node_type)).Nodup) :
    ((insertOrReplace t r).map (fun x => x.node_type)).Nodup := by
  unfold insertOrReplace
  rw [List.map_append, List.nodup_append]
  refine ⟨(List.Sublist.map _ (List.filter_sublist t)).nodup h, by simp, ?_⟩
  intro a ha hb
  simp at ha hb
  obtain ⟨x, ⟨hx, hxk⟩, rfl⟩ := ha
  exact hxk hb

/-- The insert loop preserves distinctness of the keys. -/
theorem foldl_insertOrReplace_keys_nodup (rows : List NodeRow) : ∀ (acc : List NodeRow),
    (acc.map (fun x => x.node_type)).Nodup
      → ((rows.foldl insertOrReplace acc).map (fun x => x.node_type)).Nodup := by
  induction rows with
  | nil => intro acc h; simpa using h
  | cons r rows ih =>
    intro acc h
    exact ih (insertOrReplace acc r) (insertOrReplace_keys_nodup acc r h)

/-- A rebuilt table has pairwise-distinct `node_type` keys. -/
theorem rebuildTable_keys_nodup (rows : List NodeRow) :
    ((rebuildTable rows).map (fun x => x.node_type)).Nodup :=
  foldl_insertOrReplace_keys_nodup rows [] (by simp)

/-- Key membership after one `INSERT OR REPLACE`. -/
theorem insertOrReplace_keys_mem (t : List NodeRow) (r : NodeRow) (ty : String) :
    ty ∈ (insertOrReplace t r).map (fun x => x.node_type)
      ↔ ty = r.node_type ∨ ty ∈ t.map (fun x => x.node_type) := by
  unfold insertOrReplace
  simp only [List.map_append, List.mem_append, List.map_cons, List.map_nil,
    List.mem_singleton]
  constructor
  · rintro (h | h)
    · simp at h
      obtain ⟨x, ⟨hx, _⟩, rfl⟩ := h
      right; exact List.mem_map_of_mem _ hx
    · left; exact h
  · rintro (rfl | h)
    · right; rfl
    · by_cases hr : ty = r.node_type
      · right; exact hr
      · left
        simp at h ⊢
        obtain ⟨x, hx, rfl⟩ := h
        exact ⟨x, ⟨hx, fun hh => hr (by rw [hh])⟩, rfl⟩

/-- Key membership through the insert loop. -/
theorem foldl_insertOrReplace_keys_mem (rows : List NodeRow) : ∀ (acc : List NodeRow) (ty : String),
    ty ∈ ((rows.foldl insertOrReplace acc).map (fun x => x.node_type))
      ↔ ty ∈ rows.map (fun x => x.node_type) ∨ ty ∈ acc.map (fun x => x.node_type) := by
  induction rows with
  | nil => intro acc ty; simp
  | cons r rows ih =>
    intro acc ty
    simp only [List.foldl_cons, List.map_cons, List.mem_cons]
    rw [ih, insertOrReplace_keys_mem]
    tauto

/-- A rebuilt table holds exactly the keys of its input descriptors. -/
theorem rebuildTable_keys_mem (rows : List NodeRow) (ty : String) :
    ty ∈ (rebuildTable rows).map (fun x => x.node_type)
      ↔ ty ∈ rows.map (fun x => x.node_type) := by
  unfold rebuildTable
  rw [foldl_insertOrReplace_keys_mem]
  simp

/-- In a table with distinct keys, at most one row carries a key. -/
theorem filter_key_length_le_one (t : List NodeRow)
    (h : (t.map (fun x => x.node_type)).Nodup) (ty : String) :
    (t.filter (fun x => x.node_type == ty)).length ≤ 1 := by
  induction t with
  | nil => simp
  | cons x t ih =>
    simp only [List.map_cons, List.nodup_cons] at h
    by_cases hx : x.node_type = ty
    · have : t.filter (fun r => r.node_type == ty) = [] := by
        rw [List.filter_eq_nil_iff]
        intro a ha
        simp
        intro hk
        apply h.1
        have hxa : x.node_type = a.node_type := by rw [hx, hk]
        rw [hxa]
        exact List.mem_map_of_mem _ ha
      simp [List.filter_cons, hx, this]
    · have : (x.node_type == ty) = false := by simp [hx]
      simp [List.filter_cons, this]
      exact ih h.2

end Rebuild

/-- A catalog row with the given key, package, display name and
description, every other column at the rebuild defaults; used to
instantiate the claim theorems on concrete tables. -/
def mkRow (ty pkg dn ds : String) : NodeRow :=
  { node_type := ty, package_name := pkg, display_name := dn, description := ds,
    category := some "misc", documentation := none, properties_schema := none,
    operations := none, credentials_required := none,
    development_style := some "programmatic", is_ai_tool := 0, is_trigger := 0,
    is_webhook := 0, is_versioned := some 0, version := some (.valid (.num 1)) }

/-- C1: for every input list of extracted descriptors, the rebuilt
catalog has pairwise-distinct `node_type` keys, holds a key exactly when
some input descriptor carries it, holds at most one row per key, and an
inserted key resolves to the entire last descriptor inserted with that
key (last-write-wins, wholesale replacement). -/
theorem claim_C1_nodeType_unique_last_write_wins (rows : List NodeRow) :
    ((Rebuild.rebuildTable rows).map (fun r => r.node_type)).Nodup
    ∧ (∀ ty, ty ∈ (Rebuild.rebuildTable rows).map (fun r => r.node_type)
        ↔ ty ∈ rows.map (fun r => r.node_type))
    ∧ (∀ ty, ((Rebuild.rebuildTable rows).filter (fun r => r.node_type == ty)).length ≤ 1)
    ∧ (∀ ty, (Rebuild.rebuildTable rows).find? (fun r => r.node_type == ty)
        = rows.reverse.find? (fun r => r.node_type == ty)) :=
  ⟨Rebuild.rebuildTable_keys_nodup rows,
   fun ty => Rebuild.rebuildTable_keys_mem rows ty,
   fun ty => Rebuild.filter_key_length_le_one _ (Rebuild.rebuildTable_keys_nodup rows) ty,
   fun ty => Rebuild.rebuildTable_find? rows ty⟩

/-- C1 witness: two descriptors with the key `nodes-base.slack` collapse
to the later one. -/
theorem claim_C1_witness :
    (Rebuild.rebuildTable
        [mkRow "nodes-base.slack" "n8n-nodes-base" "Slack v1" "",
         mkRow "nodes-base.slack" "n8n-nodes-base" "Slack v2" ""]).find?
        (fun r => r.node_type == "nodes-base.slack")
      = some (mkRow "nodes-base.slack" "n8n-nodes-base" "Slack v2" "")
    ∧ ((Rebuild.rebuildTable
        [mkRow "nodes-base.slack" "n8n-nodes-base" "Slack v1" "",
         mkRow "nodes-base.slack" "n8n-nodes-base" "Slack v2" ""]).filter
        (fun r => r.node_type == "nodes-base.slack")).length ≤ 1 := by
  constructor
  · rw [(claim_C1_nodeType_unique_last_write_wins _).2.2.2 "nodes-base.slack"]
    rfl
  · exact (claim_C1_nodeType_unique_last_write_wins _).2.2.1 "nodes-base.slack"

/-! ## Sorting lemmas for the version field -/

instance : IsTotal ℚ (fun a b => b ≤ a) := ⟨fun a b => le_total b a⟩

instance : IsTrans ℚ (fun a b => b ≤ a) := ⟨fun _ _ _ h h2 => le_trans h2 h⟩

namespace Rebuild

/-- `sortDesc` really sorts descending. -/
theorem sortDesc_sorted (qs : List ℚ) : List.Sorted (fun a b => b ≤ a) (sortDesc qs) :=
  List.sorted_insertionSort _ qs

/-- `sortDesc` is a permutation of its input. -/
theorem sortDesc_perm (qs : List ℚ) : List.Perm (sortDesc qs) qs :=
  List.perm_insertionSort _ qs

/-- The head of the descending sort bounds every input element. -/
theorem sortDesc_head_max (qs : List ℚ) (m : ℚ) (h : (sortDesc qs).head? = some m) :
    ∀ v ∈ qs, v ≤ m := by
  intro v hv
  have hmem : v ∈ sortDesc qs := (sortDesc_perm qs).symm.subset hv
  have hs := sortDesc_sorted qs
  cases hq : sortDesc qs with
  | nil => rw [hq] at hmem; simp at hmem
  | cons a t =>
    rw [hq] at h hmem hs
    simp at h
    subst h
    rcases List.mem_cons.mp hmem with rfl | hm
    · exact le_refl _
    · exact (List.sorted_cons.mp hs).1 v hm

/-- The head of the descending sort is one of the input elements. -/
theorem sortDesc_head_mem (qs : List ℚ) (m : ℚ) (h : (sortDesc qs).head? = some m) :
    m ∈ qs :=
  (sortDesc_perm qs).subset (List.mem_of_mem_head? h)

/-- The descending sort of a nonempty list is nonempty. -/
theorem sortDesc_ne_nil (qs : List ℚ) (h : qs ≠ []) : sortDesc qs ≠ [] := by
  intro hc
  exact h (List.Perm.eq_nil ((sortDesc_perm qs).symm.trans (hc ▸ List.Perm.refl _)))

end Rebuild

/-! ## Claim C2: version round-trip -/

/-- Looking up a row whose `version` column stores the serialized
descending sort of `vs` yields that very list, still descending and a
permutation of `vs`, with `latest_version` its greatest element. -/
theorem version_roundtrip_aux (vs : List ℚ) (hvs : vs ≠ []) (row : NodeRow) (ty : String)
    (hrow : row.version = some (JsonText.valid (.arr ((Rebuild.sortDesc vs).map Json.num))))
    (hty : row.node_type = NodeService.normalizeNodeType ty) :
    ∃ res, (NodeService.getNodeInfo [row] ty).1 = some res
      ∧ res.versions = some ((Rebuild.sortDesc vs).map Json.num)
      ∧ List.Sorted (fun a b => b ≤ a) (Rebuild.sortDesc vs)
      ∧ List.Perm (Rebuild.sortDesc vs) vs
      ∧ ∃ m, res.latest_version = some (Json.num m) ∧ m ∈ vs ∧ ∀ v ∈ vs, v ≤ m := by
  have hfind : ([row].find? (fun r => r.node_type == NodeService.normalizeNodeType ty)) = some row := by
    simp [List.find?, hty]
  obtain ⟨m, tl, hm⟩ : ∃ m tl, Rebuild.sortDesc vs = m :: tl := by
    cases hq : Rebuild.sortDesc vs with
    | nil => exact absurd hq (Rebuild.sortDesc_ne_nil vs hvs)
    | cons a t => exact ⟨a, t, rfl⟩
  have hhead : (Rebuild.sortDesc vs).head? = some m := by rw [hm]; rfl
  have hget : (NodeService.getNodeInfo [row] ty).1 = some
      { base := row,
        properties := (NodeService.parseJsonColumn row.properties_schema
          ("Failed to parse properties_schema for " ++ ty)).1,
        operations_list := (NodeService.parseJsonColumn row.operations
          ("Failed to parse operations for " ++ ty)).1,
        credentials := (NodeService.parseJsonColumn row.credentials_required
          ("Failed to parse credentials for " ++ ty)).1,
        versions := (NodeService.parseVersionColumn row.version).1,
        latest_version := (NodeService.parseVersionColumn row.version).2 } := by
    simp only [NodeService.getNodeInfo, hfind]
  refine ⟨_, hget, ?_, Rebuild.sortDesc_sorted vs, Rebuild.sortDesc_perm vs,
    m, ?_, Rebuild.sortDesc_head_mem vs m hhead, Rebuild.sortDesc_head_max vs m hhead⟩
  · simp [NodeService.parseVersionColumn, hrow, jsonTextTruthy]
  · simp [NodeService.parseVersionColumn, hrow, jsonTextTruthy, hm]

/-- C2: a node declaring its versions numerically — as a `nodeVersions`
map (first conjunct) or as a declared version array (second conjunct) —
has its `version` field serialized by `extractVersion` and deserialized
by `getNodeInfo` into a descending-sorted numeric list that is a
permutation of the declared versions, with `latest_version` the greatest
declared version. -/
theorem claim_C2_version_roundtrip_desc_sorted :
    (∀ (nc : NodeClassJs) (inst : NodeInstance) (nv : List (ℚ × Json)) (ty : String),
      nc.construct = some inst →
      inst.nodeVersions = some nv →
      nv ≠ [] →
      ∀ (row : NodeRow), row.version = some (Rebuild.extractVersion nc) →
        row.node_type = NodeService.normalizeNodeType ty →
        ∃ res, (NodeService.getNodeInfo [row] ty).1 = some res
          ∧ res.versions = some ((Rebuild.sortDesc (nv.map (·.1))).map Json.num)
          ∧ List.Sorted (fun a b => b ≤ a) (Rebuild.sortDesc (nv.map (·.1)))
          ∧ List.Perm (Rebuild.sortDesc (nv.map (·.1))) (nv.map (·.1))
          ∧ ∃ m, res.latest_version = some (Json.num m) ∧ m ∈ nv.map (·.1)
              ∧ ∀ v ∈ nv.map (·.1), v ≤ m)
    ∧ (∀ (nc : NodeClassJs) (inst : NodeInstance) (d : NodeDescriptionJs) (vs : List ℚ) (ty : String),
      nc.construct = some inst →
      inst.nodeVersions = none →
      (if inst.description.isSome then inst.description else inst.baseDescription) = some d →
      d.version = .list vs →
      vs ≠ [] →
      ∀ (row : NodeRow), row.version = some (Rebuild.extractVersion nc) →
        row.node_type = NodeService.normalizeNodeType ty →
        ∃ res, (NodeService.getNodeInfo [row] ty).1 = some res
          ∧ res.versions = some ((Rebuild.sortDesc vs).map Json.num)
          ∧ List.Sorted (fun a b => b ≤ a) (Rebuild.sortDesc vs)
          ∧ List.Perm (Rebuild.sortDesc vs) vs
          ∧ ∃ m, res.latest_version = some (Json.num m) ∧ m ∈ vs ∧ ∀ v ∈ vs, v ≤ m) := by
  constructor
  · intro nc inst nv ty h1 h2 hne row hrow hty
    have hev : Rebuild.extractVersion nc
        = .valid (.arr ((Rebuild.sortDesc (nv.map (·.1))).map Json.num)) := by
      simp only [Rebuild.extractVersion, h1, h2]
    exact version_roundtrip_aux (nv.map (·.1)) (by simpa using hne) row ty (hev ▸ hrow) hty
  · intro nc inst d vs ty h1 h2 h3 h4 hne row hrow hty
    have hev : Rebuild.extractVersion nc
        = .valid (.arr ((Rebuild.sortDesc vs).map Json.num)) := by
      simp only [Rebuild.extractVersion, h1, h2, h3, h4]
    exact version_roundtrip_aux vs hne row ty (hev ▸ hrow) hty

/-- The rational 2.6 in constructor form (13/5). -/
def ratTwoPointSix : ℚ := ⟨13, 5, by norm_num, by norm_num⟩

/-- A description declaring `version: [1, 2, 2.6]`. -/
def versionDemoDescription : NodeDescriptionJs :=
  { NodeDescriptionJs.empty with
    name := some "demo",
    version := .list [1, 2, ratTwoPointSix] }

/-- A plain node class exposing `versionDemoDescription`. -/
def versionDemoClass : NodeClassJs :=
  { classNodeVersions := false, classHasGetNodeType := false, isFunction := true,
    construct := some { description := some versionDemoDescription, baseDescription := none,
                        nodeVersions := none, instHasGetNodeType := false },
    staticDescription := none }

/-- The stored row the rebuild would write for the demo node's version. -/
def versionDemoRow : NodeRow :=
  { mkRow "nodes-base.demo" "n8n-nodes-base" "Demo" "" with
    version := some (Rebuild.extractVersion versionDemoClass) }

/-- C2 witness: the declared array `[1, 2, 2.6]` stores and re-reads as
a descending-sorted permutation of itself with the greatest element as
`latest_version`. -/
theorem claim_C2_witness :
    ∃ res, (NodeService.getNodeInfo [versionDemoRow] "nodes-base.demo").1 = some res
      ∧ res.versions = some ((Rebuild.sortDesc [1, 2, ratTwoPointSix]).map Json.num)
      ∧ List.Sorted (fun a b => b ≤ a) (Rebuild.sortDesc [1, 2, ratTwoPointSix])
      ∧ List.Perm (Rebuild.sortDesc [1, 2, ratTwoPointSix]) [1, 2, ratTwoPointSix]
      ∧ ∃ m, res.latest_version = some (Json.num m) ∧ m ∈ [1, 2, ratTwoPointSix]
          ∧ ∀ v ∈ [1, 2, ratTwoPointSix], v ≤ m :=
  claim_C2_version_roundtrip_desc_sorted.2 versionDemoClass
    { description := some versionDemoDescription, baseDescription := none,
      nodeVersions := none, instHasGetNodeType := false }
    versionDemoDescription [1, 2, ratTwoPointSix] "nodes-base.demo"
    rfl rfl rfl rfl (List.cons_ne_nil 1 [2, ratTwoPointSix]) versionDemoRow rfl (by decide)

/-! ## Claim C3: per-module load failures -/

namespace NodeLoader

/-- The loader loop collects exactly the per-path successes, and its
console output is exactly one `✓ Loaded` line per collected triple — in
particular nothing at all for a failing module. -/
theorem loadPackageNodes_eq (pkg : String) (load : String → ModuleLoad) (paths : List String) :
    loadPackageNodes pkg load paths
      = (paths.filterMap (loadOne pkg load),
         paths.filterMap (fun p => (loadOne pkg load p).map (fun n => "  ✓ Loaded " ++ n.nodeName))) := by
  induction paths with
  | nil => rfl
  | cons p rest ih =>
    simp only [loadPackageNodes, List.filterMap_cons]
    rw [ih]
    cases h : load p with
    | throws => simp [loadOne, h]
    | loaded exps =>
      cases hr : resolveNodeClass exps (extractNodeName p) with
      | none => simp [loadOne, h, hr]
      | some nc => simp [loadOne, h, hr]

end NodeLoader

/-- C3 (amended): a module that fails to load (or exports no class) is
swallowed silently — it is omitted from the result, contributes no log
line, and does not abort the scan of the remaining modules; the scan
result is exactly the list of successfully loaded
`(packageName, nodeName, NodeClass)` triples, with one `✓ Loaded` log
line per success (and none for the failure, contrary to the claim's
"logs one failure"). -/
theorem claim_C3_amended_silent_per_module_skip :
    (∀ (pkg : String) (load : String → ModuleLoad) (paths : List String),
      (NodeLoader.loadPackageNodes pkg load paths).1
          = paths.filterMap (NodeLoader.loadOne pkg load)
      ∧ (NodeLoader.loadPackageNodes pkg load paths).2
          = (paths.filterMap (NodeLoader.loadOne pkg load)).map
              (fun n => "  ✓ Loaded " ++ n.nodeName))
    ∧ (∀ (pkg : String) (load : String → ModuleLoad) (l1 l2 : List String) (p : String),
        NodeLoader.loadOne pkg load p = none →
        NodeLoader.loadPackageNodes pkg load (l1 ++ p :: l2)
          = NodeLoader.loadPackageNodes pkg load (l1 ++ l2)) := by
  constructor
  · intro pkg load paths
    rw [NodeLoader.loadPackageNodes_eq]
    refine ⟨rfl, ?_⟩
    simp [List.map_filterMap]
  · intro pkg load l1 l2 p h
    rw [NodeLoader.loadPackageNodes_eq, NodeLoader.loadPackageNodes_eq]
    simp [List.filterMap_append, List.filterMap_cons, h]

/-- A trivially constructible node class for loader scenarios. -/
def scanDemoClass : NodeClassJs :=
  ⟨false, false, true, some ⟨none, none, none, false⟩, none⟩

/-- A load environment where module `B` throws and every other module
exports `scanDemoClass` as its default export. -/
def scanDemoLoad : String → ModuleLoad := fun p =>
  if p == "dist/nodes/B/B.node.js" then .throws
  else .loaded [("default", scanDemoClass)]

/-- C3 counterexample: a manifest listing three modules whose second
fails to load yields exactly 2 loaded entries — but the console output
is exactly the two success lines: the failure is NOT logged (the claim
says one failure is logged; the catch block is empty). -/
theorem claim_C3_counterexample :
    (NodeLoader.loadPackageNodes "n8n-nodes-base" scanDemoLoad
        ["dist/nodes/A/A.node.js", "dist/nodes/B/B.node.js", "dist/nodes/C/C.node.js"]).1.length = 2
    ∧ (NodeLoader.loadPackageNodes "n8n-nodes-base" scanDemoLoad
        ["dist/nodes/A/A.node.js", "dist/nodes/B/B.node.js", "dist/nodes/C/C.node.js"]).2
      = ["  ✓ Loaded A", "  ✓ Loaded C"] := by
  constructor
  · rfl
  · rfl

/-- C3 witness: removing the failing second module from the manifest
does not change the scan outcome at all, and the scan of the three-entry
manifest returns exactly the successes. -/
theorem claim_C3_witness :
    NodeLoader.loadPackageNodes "n8n-nodes-base" scanDemoLoad
        ["dist/nodes/A/A.node.js", "dist/nodes/B/B.node.js", "dist/nodes/C/C.node.js"]
      = NodeLoader.loadPackageNodes "n8n-nodes-base" scanDemoLoad
          ["dist/nodes/A/A.node.js", "dist/nodes/C/C.node.js"]
    ∧ (NodeLoader.loadPackageNodes "n8n-nodes-base" scanDemoLoad
        ["dist/nodes/A/A.node.js", "dist/nodes/C/C.node.js"]).1
      = ["dist/nodes/A/A.node.js", "dist/nodes/C/C.node.js"].filterMap
          (NodeLoader.loadOne "n8n-nodes-base" scanDemoLoad) := by
  constructor
  · exact claim_C3_amended_silent_per_module_skip.2 "n8n-nodes-base" scanDemoLoad
      ["dist/nodes/A/A.node.js"] ["dist/nodes/C/C.node.js"] "dist/nodes/B/B.node.js" rfl
  · exact (claim_C3_amended_silent_per_module_skip.1 "n8n-nodes-base" scanDemoLoad
      ["dist/nodes/A/A.node.js", "dist/nodes/C/C.node.js"]).1

/-! ## Claim C4: keyword search -/

/-- A character list free of the LIKE wildcards `%` and `_`. -/
def wildcardFree (cs : List Char) : Prop := ∀ c ∈ cs, c ≠ '%' ∧ c ≠ '_'

/-- Every suffix scan of the empty pattern succeeds (the empty suffix
always qualifies). -/
theorem likeTail_empty_pattern : ∀ ts : List Char, likeTail (fun s => s.isEmpty) ts = true := by
  intro ts
  induction ts with
  | nil => rfl
  | cons t ts ih => simp [likeTail, ih]

/-- `likeTail` only depends on the pointwise behaviour of its functional. -/
theorem likeTail_congr (f g : List Char → Bool) (h : ∀ s, f s = g s) :
    ∀ ts, likeTail f ts = likeTail g ts := by
  intro ts
  induction ts with
  | nil => simp [likeTail, h]
  | cons t ts ih => simp [likeTail, h, ih]

/-- `startsWith` against the empty text. -/
theorem startsWith_nil (k : List Char) : startsWith k [] = k.isEmpty := by
  cases k <;> rfl

/-- A wildcard-free pattern followed by `%` matches exactly the texts it
is a prefix of. -/
theorem likeMatch_trailing_percent (k : List Char) (hk : wildcardFree k) :
    ∀ ts : List Char, likeMatch (k ++ ['%']) ts = startsWith k ts := by
  induction k with
  | nil =>
    intro ts
    simp only [List.nil_append]
    show likeMatch ['%'] ts = startsWith [] ts
    have h1 : likeMatch ['%'] ts = likeTail (fun s => s.isEmpty) ts := by
      simp [likeMatch]
    rw [h1, likeTail_empty_pattern]
    rfl
  | cons c k ih =>
    intro ts
    have hc := hk c (List.mem_cons_self c k)
    have hk' : wildcardFree k := fun x hx => hk x (List.mem_cons_of_mem c hx)
    cases ts with
    | nil =>
      rw [List.cons_append, likeMatch]
      simp [hc.1, startsWith]
    | cons t ts =>
      rw [List.cons_append, likeMatch]
      simp only [if_neg hc.1, if_neg hc.2]
      rw [ih hk' ts]
      rfl

/-- The substring scan is the suffix scan of the prefix test. -/
theorem isSubstr_eq_likeTail (k : List Char) :
    ∀ ts, isSubstr k ts = likeTail (fun s => startsWith k s) ts := by
  intro ts
  induction ts with
  | nil => simp [isSubstr, likeTail, startsWith_nil]
  | cons t ts ih => simp [isSubstr, likeTail, ih]

/-- For a wildcard-free keyword `k`, the pattern `%k%` matches exactly
the texts containing `k` as a contiguous substring. -/
theorem likeMatch_substr (k : List Char) (hk : wildcardFree k) :
    ∀ ts : List Char, likeMatch ('%' :: (k ++ ['%'])) ts = isSubstr k ts := by
  intro ts
  have h1 : likeMatch ('%' :: (k ++ ['%'])) ts = likeTail (likeMatch (k ++ ['%'])) ts := by
    simp [likeMatch]
  rw [h1, likeTail_congr _ _ (fun s => likeMatch_trailing_percent k hk s) ts,
    isSubstr_eq_likeTail]

/-- The ASCII case-fold maps no character onto a LIKE wildcard. -/
theorem lowerAsciiChar_wildcard (c : Char) (h1 : c ≠ '%') (h2 : c ≠ '_') :
    lowerAsciiChar c ≠ '%' ∧ lowerAsciiChar c ≠ '_' := by
  unfold lowerAsciiChar
  by_cases hA : c = 'A'
  · rw [if_pos hA]
    decide
  rw [if_neg hA]
  by_cases hB : c = 'B'
  · rw [if_pos hB]
    decide
  rw [if_neg hB]
  by_cases hC : c = 'C'
  · rw [if_pos hC]
    decide
  rw [if_neg hC]
  by_cases hD : c = 'D'
  · rw [if_pos hD]
    decide
  rw [if_neg hD]
  by_cases hE : c = 'E'
  · rw [if_pos hE]
    decide
  rw [if_neg hE]
  by_cases hF : c = 'F'
  · rw [if_pos hF]
    decide
  rw [if_neg hF]
  by_cases hG : c = 'G'
  · rw [if_pos hG]
    decide
  rw [if_neg hG]
  by_cases hH : c = 'H'
  · rw [if_pos hH]
    decide
  rw [if_neg hH]
  by_cases hI : c = 'I'
  · rw [if_pos hI]
    decide
  rw [if_neg hI]
  by_cases hJ : c = 'J'
  · rw [if_pos hJ]
    decide
  rw [if_neg hJ]
  by_cases hK : c = 'K'
  · rw [if_pos hK]
    decide
  rw [if_neg hK]
  by_cases hL : c = 'L'
  · rw [if_pos hL]
    decide
  rw [if_neg hL]
  by_cases hM : c = 'M'
  · rw [if_pos hM]
    decide
  rw [if_neg hM]
  by_cases hN : c = 'N'
  · rw [if_pos hN]
    decide
  rw [if_neg hN]
  by_cases hO : c = 'O'
  · rw [if_pos hO]
    decide
  rw [if_neg hO]
  by_cases hP : c = 'P'
  · rw [if_pos hP]
    decide
  rw [if_neg hP]
  by_cases hQ : c = 'Q'
  · rw [if_pos hQ]
    decide
  rw [if_neg hQ]
  by_cases hR : c = 'R'
  · rw [if_pos hR]
    decide
  rw [if_neg hR]
  by_cases hS : c = 'S'
  · rw [if_pos hS]
    decide
  rw [if_neg hS]
  by_cases hT : c = 'T'
  · rw [if_pos hT]
    decide
  rw [if_neg hT]
  by_cases hU : c = 'U'
  · rw [if_pos hU]
    decide
  rw [if_neg hU]
  by_cases hV : c = 'V'
  · rw [if_pos hV]
    decide
  rw [if_neg hV]
  by_cases hW : c = 'W'
  · rw [if_pos hW]
    decide
  rw [if_neg hW]
  by_cases hX : c = 'X'
  · rw [if_pos hX]
    decide
  rw [if_neg hX]
  by_cases hY : c = 'Y'
  · rw [if_pos hY]
    decide
  rw [if_neg hY]
  by_cases hZ : c = 'Z'
  · rw [if_pos hZ]
    decide
  rw [if_neg hZ]
  exact ⟨h1, h2⟩

/-- Case-folding preserves wildcard-freeness. -/
theorem wildcardFree_lowerAscii (cs : List Char) (h : wildcardFree cs) :
    wildcardFree (lowerAscii cs) := by
  intro c hc
  simp only [lowerAscii, List.mem_map] at hc
  obtain ⟨a, ha, rfl⟩ := hc
  exact lowerAsciiChar_wildcard a (h a ha).1 (h a ha).2

namespace NodeService

/-- Modelled from the spec: case-insensitive substring match of a
keyword against the type identifier, display name, description and
documentation of a row (the searched columns), used to compare the
SQL LIKE implementation against the spec's description. -/
def substrMatchesSpec (keyword : String) (r : NodeRow) : Bool :=
  let k := lowerAscii keyword.data
  isSubstr k (lowerAscii r.node_type.data) ||
  isSubstr k (lowerAscii r.display_name.data) ||
  isSubstr k (lowerAscii r.description.data) ||
    (match r.documentation with
     | some d => isSubstr k (lowerAscii d.data)
     | none => false)

/-- The LIKE pattern of `searchNodes`, lowered, is `%` + lowered keyword
+ `%`. -/
theorem lowered_pattern (keyword : String) :
    lowerAscii ("%" ++ keyword ++ "%").data
      = '%' :: (lowerAscii keyword.data ++ ['%']) := by
  have h1 : ("%" : String).data = ['%'] := rfl
  rw [String.data_append, String.data_append, h1]
  simp [lowerAscii]
  rfl

/-- For wildcard-free keywords, the WHERE clause of `searchNodes` is
exactly the spec's case-insensitive substring test. -/
theorem searchMatches_eq_substr (keyword : String) (hk : wildcardFree keyword.data)
    (r : NodeRow) : searchMatches keyword r = substrMatchesSpec keyword r := by
  have hfree := wildcardFree_lowerAscii keyword.data hk
  have hlike : ∀ text : String,
      sqlLike text ("%" ++ keyword ++ "%")
        = isSubstr (lowerAscii keyword.data) (lowerAscii text.data) := by
    intro text
    unfold sqlLike
    rw [lowered_pattern, likeMatch_substr _ hfree]
  unfold searchMatches substrMatchesSpec
  simp only [hlike]

end NodeService

/-- C4 (amended to wildcard-free keywords): for every stored catalog,
every keyword containing neither `%` nor `_`, and every limit,
`searchNodes` returns precisely the rows whose type identifier, display
name, description or documentation contains the keyword as a
case-insensitive substring — in table order, capped at `limit`, in the
reduced projection — hence at most `limit` results, and the empty list
(never an error) when nothing matches. -/
theorem claim_C4_amended_search_substring (db : List NodeRow) (keyword : String)
    (limit : Nat) (hk : wildcardFree keyword.data) :
    NodeService.searchNodes db keyword limit
        = ((db.filter (NodeService.substrMatchesSpec keyword)).take limit).map
            NodeService.searchProjection
    ∧ (NodeService.searchNodes db keyword limit).length ≤ limit
    ∧ ((∀ r ∈ db, NodeService.substrMatchesSpec keyword r = false) →
        NodeService.searchNodes db keyword limit = []) := by
  have hfilter : db.filter (NodeService.searchMatches keyword)
      = db.filter (NodeService.substrMatchesSpec keyword) :=
    List.filter_congr (fun r _ => NodeService.searchMatches_eq_substr keyword hk r)
  refine ⟨?_, ?_, ?_⟩
  · unfold NodeService.searchNodes
    rw [hfilter]
  · unfold NodeService.searchNodes
    rw [List.length_map]
    exact List.length_take_le limit _
  · intro hnone
    unfold NodeService.searchNodes
    rw [hfilter, List.filter_eq_nil_iff.mpr (fun a ha => by simp [hnone a ha])]
    simp

/-- A Slack-like catalog row for the search scenarios. -/
def slackRow : NodeRow :=
  mkRow "nodes-base.slack" "n8n-nodes-base" "Slack" "Send messages to Slack"

/-- A row whose display name is `zaz`, for the wildcard counterexample. -/
def zazRow : NodeRow :=
  mkRow "nodes-base.zaz" "n8n-nodes-base" "zaz" "a node"

/-- C4 counterexample: the keyword `z_z` is NOT a substring of any field
of `zazRow`, yet `searchNodes` returns the row — the keyword is spliced
unescaped into the LIKE pattern, where `_` matches any character, so
search is not substring matching for keywords containing `%` or `_`. -/
theorem claim_C4_counterexample :
    NodeService.searchNodes [zazRow] "z_z" 10 = [NodeService.searchProjection zazRow]
    ∧ NodeService.substrMatchesSpec "z_z" zazRow = false := by
  constructor
  · rfl
  · rfl

/-- C4 witness: searching `SLACK` over a catalog holding display name
`Slack` returns that row (case-insensitively), and a keyword matching
nothing returns the empty list. -/
theorem claim_C4_witness :
    (NodeService.searchNodes [slackRow] "SLACK" 10
        = (([slackRow].filter (NodeService.substrMatchesSpec "SLACK")).take 10).map
            NodeService.searchProjection)
    ∧ NodeService.searchNodes [slackRow] "SLACK" 10 = [NodeService.searchProjection slackRow]
    ∧ NodeService.searchNodes [slackRow] "zzz-nonexistent" 10 = [] := by
  refine ⟨(claim_C4_amended_search_substring [slackRow] "SLACK" 10
      (by unfold wildcardFree; decide)).1, rfl,
    (claim_C4_amended_search_substring [slackRow] "zzz-nonexistent" 10
      (by unfold wildcardFree; decide)).2.2 (by decide)⟩

/-! ## Claim C5: search projection vs full lookup -/

/-- C5: no element of a search result carries the `documentation`,
`properties_schema`, `operations` or `credentials_required` payloads
(the SELECT omits those columns), while a successful full lookup
returns a stored row of the catalog unchanged as its base — payload
columns included — for the normalized requested type. -/
theorem claim_C5_search_reduced_lookup_full :
    (∀ (db : List NodeRow) (keyword : String) (limit : Nat) (r : NodeRow),
      r ∈ NodeService.searchNodes db keyword limit →
        r.documentation = none ∧ r.properties_schema = none
        ∧ r.operations = none ∧ r.credentials_required = none)
    ∧ (∀ (db : List NodeRow) (ty : String) (res : NodeService.NodeInfoFull)
        (logs : List String),
        NodeService.getNodeInfo db ty = (some res, logs) →
          res.base ∈ db ∧ res.base.node_type = NodeService.normalizeNodeType ty) := by
  constructor
  · intro db keyword limit r hr
    unfold NodeService.searchNodes at hr
    rw [List.mem_map] at hr
    obtain ⟨x, _, rfl⟩ := hr
    exact ⟨rfl, rfl, rfl, rfl⟩
  · intro db ty res logs h
    unfold NodeService.getNodeInfo at h
    cases hf : db.find? (fun r => r.node_type == NodeService.normalizeNodeType ty) with
    | none => simp [hf] at h
    | some row =>
      simp only [hf, Prod.mk.injEq, Option.some.injEq] at h
      have hbase : res.base = row := by rw [← h.1]
      rw [hbase]
      exact ⟨List.mem_of_find?_eq_some hf, by simpa using List.find?_some hf⟩

/-- A row carrying all payload columns, for the projection scenarios. -/
def docRow : NodeRow :=
  { mkRow "nodes-base.doc" "n8n-nodes-base" "Doc" "has documentation" with
    documentation := some "# Doc\n\nSome docs\n",
    properties_schema := some (.valid (.arr [])),
    operations := some (.valid (.arr [])),
    credentials_required := some (.valid (.arr [])) }

/-- C5 witness: a search hit on a row whose stored payloads are all
present comes back with every payload column `undefined`, while the full
lookup returns the stored row itself, documentation included. -/
theorem claim_C5_witness :
    ((NodeService.searchProjection docRow).documentation = none
      ∧ (NodeService.searchProjection docRow).properties_schema = none
      ∧ (NodeService.searchProjection docRow).operations = none
      ∧ (NodeService.searchProjection docRow).credentials_required = none)
    ∧ (∃ res logs, NodeService.getNodeInfo [docRow] "nodes-base.doc" = (some res, logs)
        ∧ res.base ∈ [docRow]
        ∧ res.base.documentation = some "# Doc\n\nSome docs\n") := by
  constructor
  · have hm : NodeService.searchProjection docRow ∈ NodeService.searchNodes [docRow] "doc" 10 := by
      have hs : NodeService.searchNodes [docRow] "doc" 10
          = [NodeService.searchProjection docRow] := rfl
      rw [hs]
      exact List.mem_singleton_self _
    exact claim_C5_search_reduced_lookup_full.1 [docRow] "doc" 10 _ hm
  · obtain ⟨res, logs, hres⟩ : ∃ res logs,
        NodeService.getNodeInfo [docRow] "nodes-base.doc" = (some res, logs) := ⟨_, _, rfl⟩
    have hmem := (claim_C5_search_reduced_lookup_full.2 [docRow] "nodes-base.doc" res logs hres).1
    refine ⟨res, logs, hres, hmem, ?_⟩
    rw [List.mem_singleton.mp hmem]
    rfl

/-! ## Claim C6: documentation synthesis priority -/

/-- Joining a list whose first element is nonempty yields a nonempty
string. -/
theorem joinSep_cons_ne_empty (sep a : String) (l : List String) (ha : a ≠ "") :
    joinSep sep (a :: l) ≠ "" := by
  cases l with
  | nil => simpa [joinSep] using ha
  | cons b rest =>
    intro hc
    apply ha
    have hdata := congrArg String.data hc
    simp only [joinSep, String.data_append] at hdata
    have : a.data = [] := List.append_eq_nil.mp (List.append_eq_nil.mp hdata).1 |>.1
    cases a
    simp at this
    simp [this]

/-- A part list headed by a nonempty part synthesizes to a nonempty
body. -/
theorem synth_parts_nonempty (hd : String) (hhd : hd ≠ "") (A B C D : List String) :
    ∃ body, (if ([hd] ++ A ++ B ++ C ++ D).length > 0
        then some (joinSep "\n" ([hd] ++ A ++ B ++ C ++ D)) else none) = some body
      ∧ body ≠ "" := by
  have hcons : [hd] ++ A ++ B ++ C ++ D = hd :: (A ++ B ++ C ++ D) := by simp
  rw [hcons, if_pos (by simp : (hd :: (A ++ B ++ C ++ D)).length > 0)]
  exact ⟨_, rfl, joinSep_cons_ne_empty _ _ _ hhd⟩

/-- C6 (amended): the synthesizer returns a NON-EMPTY external map entry
verbatim; with no usable map entry and no descriptive content anywhere
it returns nothing (not an empty string); and any descriptor with a
nonempty description yields a nonempty synthesized body.  (An external
entry that is the empty string is falsy in JS and is skipped, not
returned verbatim.) -/
theorem claim_C6_amended_doc_priority :
    (∀ (d : NodeDescriptionJs) (t : String) (g : String → Option String) (s : String),
      g t = some s → s ≠ "" → Rebuild.extractDocumentation d t g = some s)
    ∧ (∀ (d : NodeDescriptionJs) (t : String) (g : String → Option String),
      strTruthy (g t) = false →
      strTruthy d.description = false → strTruthy d.subtitle = false →
      (∀ props, d.properties = some props → ∀ p ∈ props, strTruthy p.description = false) →
      d.codex = none → d.hints = none →
      Rebuild.extractDocumentation d t g = none)
    ∧ (∀ (d : NodeDescriptionJs) (t : String) (g : String → Option String) (s : String),
      strTruthy (g t) = false →
      d.description = some s → s ≠ "" →
      ∃ body, Rebuild.extractDocumentation d t g = some body ∧ body ≠ "") := by
  refine ⟨?_, ?_, ?_⟩
  · intro d t g s hg hs
    unfold Rebuild.extractDocumentation
    rw [hg]
    simp [strTruthy, hs]
  · intro d t g hg hdesc hsub hprops hcodex hhints
    unfold Rebuild.extractDocumentation
    rw [hg] at *
    simp only [hg, Bool.false_eq_true, if_false, hdesc, hsub, hcodex, hhints]
    cases hp : d.properties with
    | none => simp
    | some props =>
      have hfil : props.filter (fun p => strTruthy p.description) = [] :=
        List.filter_eq_nil_iff.mpr (fun p hpmem => by simp [hprops props hp p hpmem])
      simp [hfil, joinSep]
  · intro d t g s hg hdesc hs
    unfold Rebuild.extractDocumentation
    have htr : strTruthy (some s) = true := by simp [strTruthy, hs]
    simp only [hg, Bool.false_eq_true, if_false, hdesc, htr, eq_self_iff_true, if_true,
      Option.getD_some]
    refine synth_parts_nonempty _ ?_ _ _ _ _
    intro hc
    have hdata := congrArg String.data hc
    have hsharp : ("# " : String).data = ['#', ' '] := rfl
    simp [String.data_append, hsharp] at hdata

/-- An external documentation map holding the EMPTY string for type
`nodes-base.x` and nothing else. -/
def docsMapCE : String → Option String :=
  fun t => if t == "nodes-base.x" then some "" else none

/-- A descriptor whose only descriptive content is its description. -/
def descOnlyDescription : NodeDescriptionJs :=
  { NodeDescriptionJs.empty with
    name := some "x",
    displayName := some "X",
    description := some "Does a thing" }

/-- C6 counterexample: the map HAS an entry for the node's type (the
empty string), but the synthesizer does not return it verbatim — the
falsy entry is skipped and documentation is synthesized from the
descriptor instead. -/
theorem claim_C6_counterexample :
    docsMapCE "nodes-base.x" = some ""
    ∧ Rebuild.extractDocumentation descOnlyDescription "nodes-base.x" docsMapCE
        = some "# X\n\nDoes a thing\n"
    ∧ Rebuild.extractDocumentation descOnlyDescription "nodes-base.x" docsMapCE ≠ some "" := by
  refine ⟨rfl, rfl, ?_⟩
  decide

/-- An external documentation map with a nonempty entry for
`nodes-base.y` only. -/
def docsMapW : String → Option String :=
  fun t => if t == "nodes-base.y" then some "external docs" else none

/-- C6 witness: a nonempty map entry is returned verbatim; a fully empty
descriptor with no usable map entry synthesizes to nothing; a
description-only descriptor synthesizes a nonempty body. -/
theorem claim_C6_witness :
    Rebuild.extractDocumentation NodeDescriptionJs.empty "nodes-base.y" docsMapW
        = some "external docs"
    ∧ Rebuild.extractDocumentation NodeDescriptionJs.empty "nodes-base.z" docsMapW = none
    ∧ ∃ body, Rebuild.extractDocumentation descOnlyDescription "nodes-base.z" docsMapW
        = some body ∧ body ≠ "" :=
  ⟨claim_C6_amended_doc_priority.1 NodeDescriptionJs.empty "nodes-base.y" docsMapW
      "external docs" rfl (by decide),
   claim_C6_amended_doc_priority.2.1 NodeDescriptionJs.empty "nodes-base.z" docsMapW
      rfl rfl rfl (fun props hp => nomatch hp) rfl rfl,
   claim_C6_amended_doc_priority.2.2 descOnlyDescription "nodes-base.z" docsMapW
      "Does a thing" rfl rfl (by decide)⟩

/-! ## Claim C7: release-manifest fetching -/

/-- C7 (amended): the reconciler call fails exactly on the two fetches
the code treats as fatal — the platform version manifest AND the
nodes-base package manifest — while a missing langchain (AI-extension)
package is not fatal: the call succeeds with an empty extension list and
a recorded warning; with every fetch succeeding (and a well-formed
extension manifest) it returns the platform version field and the two
declared node lists. -/
theorem claim_C7_amended_fetch_error_conditions :
    (∀ (env : NodeService.FetchEnv) (tag : String),
      (env.fetch ("https://raw.githubusercontent.com/n8n-io/n8n/" ++ tag ++
        "/packages/cli/package.json")).ok = false →
      NodeService.fetchNodeCatalogFromGitHub env tag
        = (.error ("Failed to fetch n8n version from " ++ tag ++ ": " ++
            (env.fetch ("https://raw.githubusercontent.com/n8n-io/n8n/" ++ tag ++
              "/packages/cli/package.json")).statusText), []))
    ∧ (∀ (env : NodeService.FetchEnv) (tag : String),
      (env.fetch ("https://raw.githubusercontent.com/n8n-io/n8n/" ++ tag ++
        "/packages/cli/package.json")).ok = true →
      (env.fetch ("https://raw.githubusercontent.com/n8n-io/n8n/" ++ tag ++
        "/packages/nodes-base/package.json")).ok = false →
      NodeService.fetchNodeCatalogFromGitHub env tag
        = (.error ("Failed to fetch nodes-base package: " ++
            (env.fetch ("https://raw.githubusercontent.com/n8n-io/n8n/" ++ tag ++
              "/packages/nodes-base/package.json")).statusText), []))
    ∧ (∀ (env : NodeService.FetchEnv) (tag : String),
      (env.fetch ("https://raw.githubusercontent.com/n8n-io/n8n/" ++ tag ++
        "/packages/cli/package.json")).ok = true →
      (env.fetch ("https://raw.githubusercontent.com/n8n-io/n8n/" ++ tag ++
        "/packages/nodes-base/package.json")).ok = true →
      (env.fetch ("https://raw.githubusercontent.com/n8n-io/n8n/" ++ tag ++
        "/packages/@n8n/n8n-nodes-langchain/package.json")).ok = false →
      NodeService.fetchNodeCatalogFromGitHub env tag
        = (.ok { version := jsGet (env.fetch ("https://raw.githubusercontent.com/n8n-io/n8n/" ++
                   tag ++ "/packages/cli/package.json")).body "version",
                 fetchedFrom := tag,
                 nodesBase := NodeService.manifestNodes
                   (env.fetch ("https://raw.githubusercontent.com/n8n-io/n8n/" ++ tag ++
                     "/packages/nodes-base/package.json")).body,
                 langchain := [] },
           ["Could not fetch langchain nodes from " ++ tag]))
    ∧ (∀ (env : NodeService.FetchEnv) (tag : String) (xs : List Json),
      (env.fetch ("https://raw.githubusercontent.com/n8n-io/n8n/" ++ tag ++
        "/packages/cli/package.json")).ok = true →
      (env.fetch ("https://raw.githubusercontent.com/n8n-io/n8n/" ++ tag ++
        "/packages/nodes-base/package.json")).ok = true →
      (env.fetch ("https://raw.githubusercontent.com/n8n-io/n8n/" ++ tag ++
        "/packages/@n8n/n8n-nodes-langchain/package.json")).ok = true →
      NodeService.manifestNodes (env.fetch ("https://raw.githubusercontent.com/n8n-io/n8n/" ++
        tag ++ "/packages/@n8n/n8n-nodes-langchain/package.json")).body = Json.arr xs →
      NodeService.fetchNodeCatalogFromGitHub env tag
        = (.ok { version := jsGet (env.fetch ("https://raw.githubusercontent.com/n8n-io/n8n/" ++
                   tag ++ "/packages/cli/package.json")).body "version",
                 fetchedFrom := tag,
                 nodesBase := NodeService.manifestNodes
                   (env.fetch ("https://raw.githubusercontent.com/n8n-io/n8n/" ++ tag ++
                     "/packages/nodes-base/package.json")).body,
                 langchain := xs },
           [])) := by
  refine ⟨?_, ?_, ?_, ?_⟩
  · intro env tag h1
    unfold NodeService.fetchNodeCatalogFromGitHub
    simp [h1]
  · intro env tag h1 h2
    unfold NodeService.fetchNodeCatalogFromGitHub
    simp [h1, h2]
  · intro env tag h1 h2 h3
    unfold NodeService.fetchNodeCatalogFromGitHub
    simp [h1, h2, h3]
  · intro env tag xs h1 h2 h3 hx
    unfold NodeService.fetchNodeCatalogFromGitHub
    simp [h1, h2, h3, hx]

/-- A fetch environment where only the nodes-base package manifest is
missing at tag `sometag`; everything else responds OK with a well-formed
manifest body. -/
def fetchEnvCE : NodeService.FetchEnv :=
  { fetch := fun url =>
      if url == "https://raw.githubusercontent.com/n8n-io/n8n/sometag/packages/nodes-base/package.json"
      then { ok := false, statusText := "Not Found", body := Json.null }
      else { ok := true, statusText := "OK",
             body := Json.obj [("version", Json.str "1.2.3"),
                               ("n8n", Json.obj [("nodes", Json.arr [])])] } }

/-- C7 counterexample: the platform's own version file IS retrievable
(the first fetch is ok), yet the call fails — because the nodes-base
manifest fetch is also fatal in the code.  The claim's "fails exactly
when the platform's own version file cannot be retrieved" is false. -/
theorem claim_C7_counterexample :
    (fetchEnvCE.fetch ("https://raw.githubusercontent.com/n8n-io/n8n/" ++ "sometag" ++
        "/packages/cli/package.json")).ok = true
    ∧ (NodeService.fetchNodeCatalogFromGitHub fetchEnvCE "sometag").1
        = Except.error "Failed to fetch nodes-base package: Not Found" := by
  constructor
  · rfl
  · rfl

/-- A fetch environment where every manifest responds OK. -/
def fetchEnvOk : NodeService.FetchEnv :=
  { fetch := fun _ =>
      { ok := true, statusText := "OK",
        body := Json.obj [("version", Json.str "1.99.0"),
                          ("n8n", Json.obj [("nodes",
                            Json.arr [Json.str "dist/nodes/A/A.node.js"])])] } }

/-- A fetch environment where only the langchain package manifest is
missing at the `master` tag. -/
def fetchEnvNoLc : NodeService.FetchEnv :=
  { fetch := fun url =>
      if url == "https://raw.githubusercontent.com/n8n-io/n8n/master/packages/@n8n/n8n-nodes-langchain/package.json"
      then { ok := false, statusText := "Not Found", body := Json.null }
      else fetchEnvOk.fetch url }

/-- C7 witness: with every fetch succeeding the call returns the version
field and both node lists; with only the langchain manifest missing it
still succeeds, with an empty extension list and a recorded warning. -/
theorem claim_C7_witness :
    (NodeService.fetchNodeCatalogFromGitHub fetchEnvOk "master").1
      = Except.ok { version := some (Json.str "1.99.0"), fetchedFrom := "master",
                    nodesBase := Json.arr [Json.str "dist/nodes/A/A.node.js"],
                    langchain := [Json.str "dist/nodes/A/A.node.js"] }
    ∧ NodeService.fetchNodeCatalogFromGitHub fetchEnvNoLc "master"
      = (Except.ok { version := some (Json.str "1.99.0"), fetchedFrom := "master",
                     nodesBase := Json.arr [Json.str "dist/nodes/A/A.node.js"],
                     langchain := [] },
         ["Could not fetch langchain nodes from master"]) := by
  constructor
  · have h := claim_C7_amended_fetch_error_conditions.2.2.2 fetchEnvOk "master"
      [Json.str "dist/nodes/A/A.node.js"] rfl rfl rfl rfl
    rw [h]
    rfl
  · have h := claim_C7_amended_fetch_error_conditions.2.2.1 fetchEnvNoLc "master"
      rfl rfl rfl
    rw [h]
    rfl

/-! ## Claim C8: soft failure on unparseable stored payloads -/

/-- A guarded column parse logs either nothing or exactly its failure
message. -/
theorem parseJsonColumn_snd (col : Option JsonText) (msg : String) :
    (NodeService.parseJsonColumn col msg).2 = []
      ∨ (NodeService.parseJsonColumn col msg).2 = [msg] := by
  unfold NodeService.parseJsonColumn
  cases col with
  | none => left; rfl
  | some jt =>
    cases jt with
    | valid j => left; simp [jsonTextTruthy]
    | invalid s =>
      by_cases hs : s = ""
      · left; simp [jsonTextTruthy, hs]
      · right; simp [jsonTextTruthy, hs]

/-- C8 (amended): a full lookup that finds its row never throws and
always returns the stored row as its base; an unparseable
`properties_schema`, `operations` or `credentials_required` payload is
logged and its derived field omitted; an unparseable `version` payload
is neither logged nor omitted — the code falls back to a one-element
version list through `parseFloat` on the raw text (NaN when no numeric
prefix exists); every logged line concerns one of the three former
columns, never the version. -/
theorem claim_C8_amended_soft_parse_failures :
    ∀ (db : List NodeRow) (ty : String) (row : NodeRow),
      db.find? (fun r => r.node_type == NodeService.normalizeNodeType ty) = some row →
      ∃ res logs, NodeService.getNodeInfo db ty = (some res, logs)
        ∧ res.base = row
        ∧ (∀ s, s ≠ "" → row.properties_schema = some (.invalid s) →
            res.properties = none
            ∧ ("Failed to parse properties_schema for " ++ ty) ∈ logs)
        ∧ (∀ s, s ≠ "" → row.operations = some (.invalid s) →
            res.operations_list = none
            ∧ ("Failed to parse operations for " ++ ty) ∈ logs)
        ∧ (∀ s, s ≠ "" → row.credentials_required = some (.invalid s) →
            res.credentials = none
            ∧ ("Failed to parse credentials for " ++ ty) ∈ logs)
        ∧ (∀ s, s ≠ "" → row.version = some (.invalid s) →
            res.versions = some [parseFloatLeading s]
            ∧ res.latest_version = some (parseFloatLeading s))
        ∧ (∀ msg ∈ logs,
            msg = "Failed to parse properties_schema for " ++ ty
            ∨ msg = "Failed to parse operations for " ++ ty
            ∨ msg = "Failed to parse credentials for " ++ ty) := by
  intro db ty row hf
  have hget : NodeService.getNodeInfo db ty = (some
      { base := row,
        properties := (NodeService.parseJsonColumn row.properties_schema
          ("Failed to parse properties_schema for " ++ ty)).1,
        operations_list := (NodeService.parseJsonColumn row.operations
          ("Failed to parse operations for " ++ ty)).1,
        credentials := (NodeService.parseJsonColumn row.credentials_required
          ("Failed to parse credentials for " ++ ty)).1,
        versions := (NodeService.parseVersionColumn row.version).1,
        latest_version := (NodeService.parseVersionColumn row.version).2 },
      (NodeService.parseJsonColumn row.properties_schema
          ("Failed to parse properties_schema for " ++ ty)).2
        ++ (NodeService.parseJsonColumn row.operations
          ("Failed to parse operations for " ++ ty)).2
        ++ (NodeService.parseJsonColumn row.credentials_required
          ("Failed to parse credentials for " ++ ty)).2) := by
    simp only [NodeService.getNodeInfo, hf]
  refine ⟨_, _, hget, rfl, ?_, ?_, ?_, ?_, ?_⟩
  · intro s hs hcol
    rw [hcol]
    constructor
    · simp [NodeService.parseJsonColumn, jsonTextTruthy, hs]
    · simp [NodeService.parseJsonColumn, jsonTextTruthy, hs]
  · intro s hs hcol
    rw [hcol]
    constructor
    · simp [NodeService.parseJsonColumn, jsonTextTruthy, hs]
    · simp [NodeService.parseJsonColumn, jsonTextTruthy, hs]
  · intro s hs hcol
    rw [hcol]
    constructor
    · simp [NodeService.parseJsonColumn, jsonTextTruthy, hs]
    · simp [NodeService.parseJsonColumn, jsonTextTruthy, hs]
  · intro s hs hcol
    rw [hcol]
    constructor
    · simp [NodeService.parseVersionColumn, jsonTextTruthy, hs]
    · simp [NodeService.parseVersionColumn, jsonTextTruthy, hs]
  · intro msg hmsg
    rcases parseJsonColumn_snd row.properties_schema
        ("Failed to parse properties_schema for " ++ ty) with hp | hp <;>
      rcases parseJsonColumn_snd row.operations
        ("Failed to parse operations for " ++ ty) with ho | ho <;>
      rcases parseJsonColumn_snd row.credentials_required
        ("Failed to parse credentials for " ++ ty) with hc | hc <;>
      rw [hp, ho, hc] at hmsg <;> simp at hmsg <;> tauto

/-- A stored row whose `version` column is the unparseable text
`not-json`. -/
def badVersionRow : NodeRow :=
  { mkRow "nodes-base.bad" "n8n-nodes-base" "Bad" "" with
    version := some (.invalid "not-json") }

/-- C8 counterexample: on an unparseable `version` payload, the lookup
does NOT omit the derived version fields (it returns `versions = [NaN]`
through the `parseFloat` fallback) and it logs nothing — against the
claim's "logs and omits the corresponding derived field". -/
theorem claim_C8_counterexample :
    ((NodeService.getNodeInfo [badVersionRow] "nodes-base.bad").1.map (fun r => r.versions))
        = some (some [Json.nan])
    ∧ ((NodeService.getNodeInfo [badVersionRow] "nodes-base.bad").1.map (fun r => r.versions))
        ≠ some none
    ∧ (NodeService.getNodeInfo [badVersionRow] "nodes-base.bad").2 = [] := by
  have h1 : ((NodeService.getNodeInfo [badVersionRow] "nodes-base.bad").1.map
      (fun r => r.versions)) = some (some [Json.nan]) := rfl
  refine ⟨h1, ?_, rfl⟩
  rw [h1]
  simp

/-- A stored row with an unparseable schema payload and an unparseable
version payload. -/
def badPayloadRow : NodeRow :=
  { mkRow "nodes-base.badp" "n8n-nodes-base" "BadP" "" with
    properties_schema := some (.invalid "oops"),
    version := some (.invalid "not-json") }

/-- C8 witness: the lookup of a row with an unparseable schema payload
still succeeds, returns the stored row as base, omits and logs the
schema field — while the unparseable version payload comes back as the
`[NaN]` fallback, unlogged. -/
theorem claim_C8_witness :
    ∃ res logs, NodeService.getNodeInfo [badPayloadRow] "nodes-base.badp" = (some res, logs)
      ∧ res.base = badPayloadRow
      ∧ res.properties = none
      ∧ ("Failed to parse properties_schema for " ++ "nodes-base.badp") ∈ logs
      ∧ res.versions = some [Json.nan]
      ∧ (∀ msg ∈ logs,
          msg = "Failed to parse properties_schema for " ++ "nodes-base.badp"
          ∨ msg = "Failed to parse operations for " ++ "nodes-base.badp"
          ∨ msg = "Failed to parse credentials for " ++ "nodes-base.badp") := by
  obtain ⟨res, logs, hget, hbase, hprops, _, _, hver, hlogs⟩ :=
    claim_C8_amended_soft_parse_failures [badPayloadRow] "nodes-base.badp" badPayloadRow rfl
  have hp := hprops "oops" (by decide) rfl
  have hv := hver "not-json" (by decide) rfl
  have hnan : parseFloatLeading "not-json" = Json.nan := rfl
  exact ⟨res, logs, hget, hbase, hp.1, hp.2, hnan ▸ hv.1, hlogs⟩

/-! ## Claim C9: nameless nodes collapse onto the `unknown` key -/

namespace Rebuild

/-- `extractNodeType` yields the literal `"unknown"` exactly for a falsy
declared name: a truthy name is either used verbatim (then it contains a
dot, which `"unknown"` does not) or prefixed with `<package>.`. -/
theorem extractNodeType_eq_unknown_iff (d : NodeDescriptionJs) (pkg : String) :
    extractNodeType d pkg = "unknown" ↔ strTruthy d.name = false := by
  unfold extractNodeType
  by_cases ht : strTruthy d.name
  · simp only [ht, Bool.not_true, Bool.false_eq_true, if_false]
    constructor
    · intro heq
      exfalso
      by_cases hdot : strContainsChar (d.name.getD "") '.'
      · rw [if_pos hdot] at heq
        rw [heq] at hdot
        exact absurd hdot (by decide)
      · rw [if_neg hdot] at heq
        have hmem : '.' ∈ (replaceFirst (replaceFirst pkg "@n8n/" "") "n8n-" "" ++ "." ++
            d.name.getD "").data := by
          rw [String.data_append, String.data_append]
          have hdotdata : ("." : String).data = ['.'] := rfl
          rw [hdotdata]
          simp
        rw [heq] at hmem
        exact absurd hmem (by decide)
    · intro hfalse
      simp at hfalse
  · simp [ht]

/-- Membership of a key in a table with distinct keys forces exactly one
matching row. -/
theorem filter_key_length_eq_one (t : List NodeRow)
    (hnodup : (t.map (fun x => x.node_type)).Nodup) (ty : String)
    (hmem : ty ∈ t.map (fun x => x.node_type)) :
    (t.filter (fun x => x.node_type == ty)).length = 1 := by
  have hle := filter_key_length_le_one t hnodup ty
  obtain ⟨r, hr, hkey⟩ := List.mem_map.mp hmem
  have hfmem : r ∈ t.filter (fun x => x.node_type == ty) :=
    List.mem_filter.mpr ⟨hr, by simp [hkey]⟩
  have hpos : 0 < (t.filter (fun x => x.node_type == ty)).length :=
    List.length_pos.mpr (fun hnil => by rw [hnil] at hfmem; cases hfmem)
  omega

/-- `find?` only depends on the pointwise behaviour of its predicate. -/
theorem find?_congr_pred {α : Type} (p q : α → Bool) (h : ∀ x, p x = q x) :
    ∀ l : List α, l.find? p = l.find? q := by
  intro l
  induction l with
  | nil => rfl
  | cons x xs ih => simp [List.find?, h x, ih]

end Rebuild

/-- C9: a loaded node whose description declares no (truthy) name is
not skipped — its descriptor gets the literal node type `"unknown"` —
and since `node_type` is the primary key under `INSERT OR REPLACE`, any
rebuild input with two or more nameless nodes ends with exactly one
`"unknown"` row: the one built from the last nameless node processed. -/
theorem claim_C9_nameless_nodes_collapse (g : String → Option String) (ns : List LoadedNode)
    (h2 : 2 ≤ (ns.filter
      (fun n => !(strTruthy (Rebuild.getNodeDescription n.NodeClass).name))).length) :
    (∀ n ∈ ns, strTruthy (Rebuild.getNodeDescription n.NodeClass).name = false →
        (Rebuild.buildRow g n).node_type = "unknown")
    ∧ ((Rebuild.rebuildCatalog g ns).filter (fun r => r.node_type == "unknown")).length = 1
    ∧ (Rebuild.rebuildCatalog g ns).find? (fun r => r.node_type == "unknown")
        = (ns.reverse.find?
            (fun n => !(strTruthy (Rebuild.getNodeDescription n.NodeClass).name))).map
            (Rebuild.buildRow g) := by
  have hkey : ∀ n : LoadedNode, (Rebuild.buildRow g n).node_type
      = Rebuild.extractNodeType (Rebuild.getNodeDescription n.NodeClass) n.packageName :=
    fun n => rfl
  have hpred : ∀ n : LoadedNode,
      ((Rebuild.buildRow g n).node_type == "unknown")
        = !(strTruthy (Rebuild.getNodeDescription n.NodeClass).name) := by
    intro n
    rw [hkey n]
    by_cases ht : strTruthy (Rebuild.getNodeDescription n.NodeClass).name
    · have : Rebuild.extractNodeType (Rebuild.getNodeDescription n.NodeClass) n.packageName
          ≠ "unknown" := by
        intro hc
        rw [(Rebuild.extractNodeType_eq_unknown_iff _ _).mp hc] at ht
        cases ht
      simp [this, ht]
    · have hf : strTruthy (Rebuild.getNodeDescription n.NodeClass).name = false := by
        revert ht
        cases strTruthy (Rebuild.getNodeDescription n.NodeClass).name <;> simp
      rw [(Rebuild.extractNodeType_eq_unknown_iff _ _).mpr hf]
      simp [hf]
  refine ⟨?_, ?_, ?_⟩
  · intro n _ hname
    rw [hkey n]
    exact (Rebuild.extractNodeType_eq_unknown_iff _ _).mpr hname
  · apply Rebuild.filter_key_length_eq_one _ (Rebuild.rebuildTable_keys_nodup _)
    rw [Rebuild.rebuildTable_keys_mem]
    have hpos : 0 < (ns.filter
        (fun n => !(strTruthy (Rebuild.getNodeDescription n.NodeClass).name))).length := by
      omega
    obtain ⟨n, hn⟩ := List.exists_mem_of_length_pos hpos
    have hnmem := (List.mem_filter.mp hn).1
    have hnname := (List.mem_filter.mp hn).2
    rw [List.mem_map]
    refine ⟨Rebuild.buildRow g n, List.mem_map_of_mem _ hnmem, ?_⟩
    rw [hkey n]
    apply (Rebuild.extractNodeType_eq_unknown_iff _ _).mpr
    revert hnname
    cases strTruthy (Rebuild.getNodeDescription n.NodeClass).name <;> simp
  · unfold Rebuild.rebuildCatalog
    rw [Rebuild.rebuildTable_find?, ← List.map_reverse, List.find?_map]
    simp only [Function.comp_def]
    rw [Rebuild.find?_congr_pred _ _ hpred ns.reverse]

/-- A plain node class whose description declares no name. -/
def namelessClass : NodeClassJs :=
  ⟨false, false, true, some ⟨some NodeDescriptionJs.empty, none, none, false⟩, none⟩

/-- First nameless loaded node. -/
def namelessA : LoadedNode := ⟨"n8n-nodes-base", "NodeA", namelessClass⟩

/-- Second nameless loaded node. -/
def namelessB : LoadedNode := ⟨"n8n-nodes-base", "NodeB", namelessClass⟩

/-- C9 witness: rebuilding from two nameless nodes leaves exactly one
`unknown` row — the one extracted from the LAST nameless node. -/
theorem claim_C9_witness :
    ((Rebuild.rebuildCatalog (fun _ => none) [namelessA, namelessB]).filter
        (fun r => r.node_type == "unknown")).length = 1
    ∧ (Rebuild.rebuildCatalog (fun _ => none) [namelessA, namelessB]).find?
        (fun r => r.node_type == "unknown")
      = some (Rebuild.buildRow (fun _ => none) namelessB) := by
  have h := claim_C9_nameless_nodes_collapse (fun _ => none) [namelessA, namelessB] (by decide)
  refine ⟨h.2.1, ?_⟩
  rw [h.2.2]
  rfl

/-! ## Claim C10: AI-capability listing -/

/-- Bytewise comparison is total. -/
theorem memcmpLe_total : ∀ xs ys : List Char, memcmpLe xs ys = true ∨ memcmpLe ys xs = true := by
  intro xs
  induction xs with
  | nil => intro ys; left; rfl
  | cons x xs ih =>
    intro ys
    cases ys with
    | nil => right; rfl
    | cons y ys =>
      by_cases hxy : x = y
      · subst hxy
        simp only [memcmpLe, if_pos rfl]
        exact ih ys
      · rcases Ne.lt_or_lt hxy with h | h
        · left; simp [memcmpLe, hxy, h]
        · right; simp [memcmpLe, Ne.symm hxy, h]

/-- Bytewise comparison is transitive. -/
theorem memcmpLe_trans : ∀ xs ys zs : List Char,
    memcmpLe xs ys = true → memcmpLe ys zs = true → memcmpLe xs zs = true := by
  intro xs
  induction xs with
  | nil => intro ys zs _ _; rfl
  | cons x xs ih =>
    intro ys zs h1 h2
    cases ys with
    | nil => simp [memcmpLe] at h1
    | cons y ys =>
      cases zs with
      | nil => simp [memcmpLe] at h2
      | cons z zs =>
        by_cases hxy : x = y <;> by_cases hyz : y = z
        · subst hxy; subst hyz
          simp only [memcmpLe, if_pos rfl] at h1 h2 ⊢
          exact ih ys zs h1 h2
        · subst hxy
          simp only [memcmpLe, if_neg hyz, decide_eq_true_eq] at h2
          simp [memcmpLe, hyz, h2]
        · subst hyz
          simp only [memcmpLe, if_neg hxy, decide_eq_true_eq] at h1
          simp [memcmpLe, hxy, h1]
        · simp only [memcmpLe, if_neg hxy, decide_eq_true_eq] at h1
          simp only [memcmpLe, if_neg hyz, decide_eq_true_eq] at h2
          have hxz : x < z := lt_trans h1 h2
          simp [memcmpLe, ne_of_lt hxz, hxz]

instance : IsTotal NodeRow displayNameLe :=
  ⟨fun a b => memcmpLe_total a.display_name.data b.display_name.data⟩

instance : IsTrans NodeRow displayNameLe :=
  ⟨fun a b c h1 h2 => memcmpLe_trans a.display_name.data b.display_name.data
      c.display_name.data h1 h2⟩

/-- C10: `getAINodes` returns exactly the stored rows whose
`is_ai_tool` flag equals 1 OR whose category is the exact string `AI`
(category membership alone suffices), ordered by display name. -/
theorem claim_C10_ai_capability_listing (db : List NodeRow) :
    (∀ r, r ∈ NodeService.getAINodes db
        ↔ r ∈ db ∧ (r.is_ai_tool = 1 ∨ r.category = some "AI"))
    ∧ List.Sorted displayNameLe (NodeService.getAINodes db)
    ∧ List.Perm (NodeService.getAINodes db)
        (db.filter (fun r => r.is_ai_tool == 1 || r.category == some "AI")) := by
  refine ⟨?_, List.sorted_insertionSort _ _, List.perm_insertionSort _ _⟩
  intro r
  unfold NodeService.getAINodes
  rw [List.mem_insertionSort, List.mem_filter]
  simp

/-- An AI node by flag only. -/
def aiFlagRow : NodeRow :=
  { mkRow "nodes-base.aiflag" "n8n-nodes-base" "Zed AI" "" with is_ai_tool := 1 }

/-- An AI node by category only (flag 0). -/
def aiCatRow : NodeRow :=
  { mkRow "nodes-base.aicat" "n8n-nodes-base" "Alpha Agent" "" with category := some "AI" }

/-- A row that is AI-capable by neither criterion. -/
def plainRow : NodeRow := mkRow "nodes-base.plain" "n8n-nodes-base" "Misc" ""

/-- C10 witness: the category-only row is listed although its flag is 0,
the plain row is not, and the result comes back sorted by display
name. -/
theorem claim_C10_witness :
    aiCatRow ∈ NodeService.getAINodes [aiFlagRow, plainRow, aiCatRow]
    ∧ aiCatRow.is_ai_tool = 0
    ∧ ¬(plainRow ∈ NodeService.getAINodes [aiFlagRow, plainRow, aiCatRow])
    ∧ NodeService.getAINodes [aiFlagRow, plainRow, aiCatRow] = [aiCatRow, aiFlagRow] := by
  refine ⟨((claim_C10_ai_capability_listing _).1 aiCatRow).mpr ⟨by simp, Or.inr rfl⟩, rfl, ?_, rfl⟩
  intro hmem
  have h := ((claim_C10_ai_capability_listing _).1 plainRow).mp hmem
  rcases h.2 with h2 | h2
  · exact absurd h2 (by decide)
  · exact absurd h2 (by simp [plainRow, mkRow])
